import Mathlib

/-!
Verification of the Coup rules engine (`src/services/gameEngine.ts`, current
revision) against its natural-language specification.

The TypeScript engine is shallowly embedded below.  JavaScript arrays of
roles may transiently hold `undefined` (out-of-range indexing, `pop` on an
empty array), so array elements are modelled as `Card := Option Role` with
`none` standing for `undefined`.  The engine's `shuffle` consumes
`Math.random()`; it is modelled by threading an explicit reordering function
(`Shuffler`) through `initializeGame` and `applyAction` — a `Shuffler`
stands for one outcome of the random comparator sort, which always produces
a permutation of its input.
-/

namespace Coup

/-- Roles, from `types.ts` (`enum Role`). -/
inductive Role where
  | duke
  | assassin
  | captain
  | ambassador
  | contessa
deriving DecidableEq, Repr

/-- A JavaScript array slot holding a role: `Role | undefined`.
`none` models `undefined`. -/
abbrev Card := Option Role

/-- Action types, from `types.ts` (`enum ActionType`). -/
inductive ActionType where
  | income
  | foreign_aid
  | tax
  | coup
  | assassinate
  | steal
  | exchange
  | block_foreign_aid
  | block_assassinate
  | block_steal
  | challenge
  | pass
deriving DecidableEq, Repr

/-- Phases, from `types.ts` (`enum Phase`). -/
inductive Phase where
  | LOBBY
  | ACTION_SELECTION
  | CHALLENGE_WINDOW
  | BLOCK_RESPONSE
  | LOSE_CARD
  | EXCHANGE_SELECT
  | GAME_OVER
deriving DecidableEq, Repr

/-- Player record, from `types.ts` (`interface Player`).  The stored
`isAlive` field is kept, though the engine's helper recomputes liveness
from `cards`. -/
structure Player where
  id : String
  name : String
  coins : Int
  cards : List Card
  isAlive : Bool
  lostCards : List Card
deriving DecidableEq, Repr

/-- In-flight claim, from `types.ts` (`interface PendingAction`). -/
structure PendingAction where
  type : ActionType
  sourceId : String
  targetId : Option String := none
  blockedBy : Option String := none
  blockedByRole : Option Role := none
deriving DecidableEq, Repr

/-- Discriminator of `challenge_success_block` log entries
(`message: 'assassinate' | 'action'`). -/
inductive BlockMsg where
  | assassinateMsg
  | actionMsg
deriving DecidableEq, Repr

/-- Structured log entries, from `types.ts` (`type LogEntry`). -/
inductive LogEntry where
  | game_start
  | game_over (winnerId : String)
  | income (actorId : String)
  | coup (actorId targetId : String)
  | action_attempt (actionType : ActionType) (actorId : String) (targetId : Option String)
  | block (blockerId : String) (role : Role)
  | block_accepted
  | steal_success (actorId targetId : String) (amount : Int)
  | tax_success (actorId : String)
  | foreign_aid_success (actorId : String)
  | exchange_start (actorId : String)
  | exchange_done (actorId : String)
  | challenge_started (challengerId challengedId : String) (claimedRole : Role)
  | challenge_success (challengerId challengedId : String) (claimedRole : Role)
  | challenge_fail (challengerId challengedId : String) (claimedRole : Role) (loserId : String)
  | challenge_success_actor (actorId : String) (loserId : Option String)
  | challenge_success_block (blockerId : String) (message : BlockMsg)
  | assassinate_victim (targetId : String)
deriving DecidableEq, Repr

/-- Game state, from `types.ts` (`interface GameState`); optional + nullable
TypeScript fields (`?: T | null`) collapse to `Option` (`undefined` and
`null` are interchangeable for every use the engine makes of them). -/
structure GameState where
  roomId : String
  hostPlayerId : String
  phase : Phase
  players : List Player
  turnIndex : Nat
  deck : List Card
  pendingAction : Option PendingAction
  logs : List LogEntry
  winnerId : Option String
  victimId : Option String
  exchangePlayerId : Option String := none
  exchangeDrawnCards : Option (List Card) := none
  deferredExchangeSourceId : Option String := none
  deferredLoseCardVictimId : Option String := none
  passedResponderIds : Option (List String) := none
deriving DecidableEq, Repr

/-- Player-submitted commands (`applyAction`'s `action` argument; the
closed vocabulary of `action.type` / `action.payload` shapes that the
engine dispatches on).  Index payloads are `Int` because clients may send
negative or overlarge indices. -/
inductive Command where
  | SUBMIT_ACTION (actionType : ActionType) (targetId : Option String)
  | PASS (playerId : Option String)
  | BLOCK (playerId : String) (role : Option Role)
  | CHALLENGE (playerId : String)
  | EXCHANGE_RETURN (playerId : String) (i j : Int)
  | LOSE_CARD (playerId : String) (cardIndex : Int)
deriving DecidableEq, Repr

/-- Constant `INITIAL_COINS` from `constants.ts`. -/
def INITIAL_COINS : Int := 2

/-- Constant `ROLES_DECK` from `constants.ts`: 3 copies of each of the 5 roles. -/
def ROLES_DECK : List Card :=
  [some .duke, some .duke, some .duke,
   some .assassin, some .assassin, some .assassin,
   some .captain, some .captain, some .captain,
   some .ambassador, some .ambassador, some .ambassador,
   some .contessa, some .contessa, some .contessa]

/-- Helper `isAlive`: a player with no cards is dead
(`player.cards.length > 0`). -/
def isAlive (player : Player) : Bool :=
  player.cards.length > 0

/-- Lookup `players.find(p => p.id === pid)`. -/
def findPlayer (players : List Player) (pid : String) : Option Player :=
  players.find? (fun p => p.id == pid)

/-- JavaScript truthiness of an optional string: `undefined`, `null` and
`""` are falsy. -/
def truthyStr : Option String → Bool
  | none => false
  | some s => !s.isEmpty

/-- JavaScript `arr[i]` on a card array: out-of-range or negative indices
yield `undefined`. -/
def idxJS (l : List Card) (i : Int) : Card :=
  if i < 0 then none else (l.get? i.toNat).getD none

/-- JavaScript `arr.pop()`: value popped (last element, `undefined` when
empty) and the remaining array. -/
def popJS (l : List Card) : Card × List Card :=
  (l.getLast?.getD none, l.dropLast)

/-- The effective start index of `arr.splice(s, 1)`: negative starts count
back from the end (clamped at 0), large starts clamp to the length. -/
def spliceStart (len : Nat) (s : Int) : Nat :=
  if s < 0 then (max ((len : Int) + s) 0).toNat else min s.toNat len

/-- Helper `getPendingResponders`: living players other than the pending action's
source (ids). -/
def getPendingResponders (state : GameState) : List String :=
  match state.pendingAction with
  | none => []
  | some pa =>
      (state.players.filter (fun p => isAlive p && p.id != pa.sourceId)).map (fun p => p.id)

/-- The engine's `shuffle` consumes `Math.random()`; a `Shuffler` is one
possible outcome of that comparator sort (applied wherever the source calls
`shuffle`). -/
abbrev Shuffler := List Card → List Card

/-- Any outcome of the comparator-based shuffle is a permutation of its
input (JavaScript `sort` rearranges, never drops or duplicates). -/
def IsShuffler (sh : Shuffler) : Prop :=
  ∀ l : List Card, (sh l).Perm l

/-- Helper `killPlayerCard`: `splice(cardIndex, 1)` the chosen card out of the hand
into `lostCards`.  When the splice removes nothing (index ≥ length on a
nonempty hand, or an empty hand) the JavaScript pushes `undefined` (`none`)
onto `lostCards`. -/
def killPlayerCard (player : Player) (cardIndex : Int) : Player :=
  let start := spliceStart player.cards.length cardIndex
  let lostCard : Card := ((player.cards.get? start).getD none)
  let newCards := player.cards.eraseIdx start
  { player with
      cards := newCards,
      lostCards := player.lostCards ++ [lostCard],
      isAlive := newCards.length > 0 }

/-- The scan loop of `nextTurn`: from `idx`, repeatedly step `(i+1) % len` until a
living player is found.  The source's `while` loop is modelled with fuel
`players.length` (enough to visit every seat once). -/
def findAliveFrom (players : List Player) : Nat → Nat → Nat
  | idx, 0 => idx
  | idx, fuel + 1 =>
      if ((players.get? idx).map isAlive).getD false then idx
      else findAliveFrom players ((idx + 1) % players.length) fuel

/-- Helper `nextTurn`: advance to the next living seat, reset to ACTION_SELECTION
and clear the window/continuation fields. -/
def nextTurn (state : GameState) : GameState :=
  let nextIndex := findAliveFrom state.players
      ((state.turnIndex + 1) % state.players.length) state.players.length
  { state with
      turnIndex := nextIndex,
      phase := .ACTION_SELECTION,
      pendingAction := none,
      victimId := none,
      exchangePlayerId := none,
      exchangeDrawnCards := none,
      deferredExchangeSourceId := none,
      deferredLoseCardVictimId := none,
      passedResponderIds := none }

/-- Helper `checkWinCondition`: when exactly one player is alive, enter GAME_OVER
with that player as winner. -/
def checkWinCondition (state : GameState) : GameState :=
  match state.players.filter isAlive with
  | [w] =>
      { state with
          phase := .GAME_OVER,
          winnerId := some w.id,
          logs := state.logs ++ [.game_over w.id] }
  | _ => state

/-- Helper `replaceCard`: on a failed challenge the challenged player reveals the
claimed role, it is spliced out (at `indexOf`, so the removed element is
exactly `some revealedRole`), returned to the deck, the deck is reshuffled,
and one replacement is popped. -/
def replaceCard (sh : Shuffler) (state : GameState) (playerId : String)
    (revealedRole : Role) : GameState :=
  match findPlayer state.players playerId with
  | none => state
  | some player =>
      if player.cards.contains (some revealedRole) then
        let cardIndex := player.cards.indexOf (some revealedRole)
        let newCards := player.cards.eraseIdx cardIndex
        let newDeck := sh (state.deck ++ [some revealedRole])
        let drawn := (popJS newDeck).1
        let deck' := (popJS newDeck).2
        { state with
            deck := deck',
            players := state.players.map (fun p =>
              if p.id == playerId then { p with cards := newCards ++ [drawn] } else p) }
      else state

/-- The dealing loop of `initializeGame`: `playerNames.map` popping two cards per
player off the shared deck (`deck.pop()!` twice). -/
def dealPlayers : List String → Nat → List Card → List Player × List Card
  | [], _, deck => ([], deck)
  | name :: rest, i, deck =>
      let c1 := (popJS deck).1
      let deck1 := (popJS deck).2
      let c2 := (popJS deck1).1
      let deck2 := (popJS deck1).2
      let r := dealPlayers rest (i + 1) deck2
      ({ id := "p" ++ toString (i + 1),
         name := name,
         coins := INITIAL_COINS,
         cards := [c1, c2],
         isAlive := true,
         lostCards := [] } :: r.1, r.2)

/-- Entry point `initializeGame`: shuffle the 15-card deck, deal 2 cards and 2 coins to
each named player (ids `p1`, `p2`, …), keep the requested host id only when
it starts with `"p"`. -/
def initializeGame (sh : Shuffler) (roomId : String) (playerNames : List String)
    (hostPlayerId : String) : GameState :=
  let deck0 := sh ROLES_DECK
  let dealt := dealPlayers playerNames 0 deck0
  let effectiveHostId := if hostPlayerId.startsWith "p" then hostPlayerId else "p1"
  { roomId := roomId,
    hostPlayerId := effectiveHostId,
    phase := .ACTION_SELECTION,
    players := dealt.1,
    turnIndex := 0,
    deck := dealt.2,
    pendingAction := none,
    logs := [.game_start],
    winnerId := none,
    victimId := none }

/-- The bounded draw loop `while (deck.length > 0 && drawn.length < 2)
drawn.push(deck.pop()!)`: up to two cards popped off the deck top.
Returns `(drawn, remaining deck)`. -/
def drawUpTo2 (deck : List Card) : List Card × List Card :=
  if deck.length = 0 then ([], deck)
  else
    let c1 := (popJS deck).1
    let d1 := (popJS deck).2
    if d1.length = 0 then ([c1], d1)
    else ([c1, (popJS d1).1], (popJS d1).2)

/-- Helper `enterChallengeWindow`: open a challenge window with an empty passed
list (after a defensive win check). -/
def enterChallengeWindow (state : GameState) (pending : PendingAction) : GameState :=
  let afterWinCheck := checkWinCondition state
  if afterWinCheck.phase = .GAME_OVER then afterWinCheck
  else
    { afterWinCheck with
        phase := .CHALLENGE_WINDOW,
        pendingAction := some pending,
        passedResponderIds := some [] }

/-- The `SUBMIT_ACTION` case of `applyAction`. -/
def applySubmitAction (state : GameState) (currentPlayer : Player)
    (actionType : ActionType) (targetId : Option String) : GameState :=
  if actionType = .income then
    nextTurn { state with
      players := state.players.map (fun p =>
        if p.id == currentPlayer.id then { p with coins := p.coins + 1 } else p),
      logs := state.logs ++ [.income currentPlayer.id] }
  else if actionType = .coup then
    if currentPlayer.coins < 7 ∨ ¬ truthyStr targetId then state
    else
      match findPlayer state.players (targetId.getD "") with
      | none => state
      | some target =>
        if !isAlive target then state
        else
          { state with
              players := state.players.map (fun p =>
                if p.id == currentPlayer.id then { p with coins := p.coins - 7 } else p),
              phase := .LOSE_CARD,
              victimId := targetId,
              logs := state.logs ++ [.coup currentPlayer.id (targetId.getD "")] }
  else if actionType = .assassinate then
    if currentPlayer.coins < 3 ∨ ¬ truthyStr targetId then state
    else
      match findPlayer state.players (targetId.getD "") with
      | none => state
      | some assassinateTarget =>
        if !isAlive assassinateTarget then state
        else
          enterChallengeWindow
            { state with
                players := state.players.map (fun p =>
                  if p.id == currentPlayer.id then { p with coins := p.coins - 3 } else p),
                logs := state.logs ++
                  [.action_attempt .assassinate currentPlayer.id targetId] }
            { type := .assassinate, sourceId := currentPlayer.id, targetId := targetId }
  else if actionType = .steal then
    if ¬ truthyStr targetId ∨ targetId.getD "" = currentPlayer.id then state
    else
      match findPlayer state.players (targetId.getD "") with
      | none => state
      | some stealTarget =>
        if !isAlive stealTarget then state
        else
          enterChallengeWindow
            { state with
                logs := state.logs ++ [.action_attempt .steal currentPlayer.id targetId] }
            { type := .steal, sourceId := currentPlayer.id, targetId := targetId }
  else if actionType = .exchange then
    enterChallengeWindow
      { state with logs := state.logs ++ [.action_attempt .exchange currentPlayer.id none] }
      { type := .exchange, sourceId := currentPlayer.id }
  else
    -- Tax, Foreign Aid (and any other submitted action type falls through here)
    enterChallengeWindow
      { state with logs := state.logs ++ [.action_attempt actionType currentPlayer.id targetId] }
      { type := actionType, sourceId := currentPlayer.id, targetId := targetId }

/-- The "all alive (except source) have passed — apply action" section of
the `PASS` case. -/
def applyPassEffect (state : GameState) (pa : PendingAction) : GameState :=
  if pa.type = .tax then
    nextTurn { state with
      players := state.players.map (fun p =>
        if p.id == pa.sourceId then { p with coins := p.coins + 3 } else p),
      passedResponderIds := none,
      pendingAction := none,
      logs := state.logs ++ [.tax_success pa.sourceId] }
  else if pa.type = .foreign_aid then
    nextTurn { state with
      players := state.players.map (fun p =>
        if p.id == pa.sourceId then { p with coins := p.coins + 2 } else p),
      passedResponderIds := none,
      pendingAction := none,
      logs := state.logs ++ [.foreign_aid_success pa.sourceId] }
  else if pa.type = .assassinate ∧ truthyStr pa.targetId then
    { state with
        phase := .LOSE_CARD,
        victimId := pa.targetId,
        passedResponderIds := none,
        pendingAction := none,
        logs := state.logs ++ [.assassinate_victim (pa.targetId.getD "")] }
  else if pa.type = .steal ∧ truthyStr pa.targetId then
    match findPlayer state.players (pa.targetId.getD "") with
    | none => state  -- source dereferences `find(...)!`; absent in engine-produced states
    | some target =>
      let amount := min 2 (max 0 target.coins)
      nextTurn { state with
        players := state.players.map (fun p =>
          if p.id == pa.sourceId then { p with coins := p.coins + amount }
          else if p.id == pa.targetId.getD "" then { p with coins := p.coins - amount }
          else p),
        passedResponderIds := none,
        pendingAction := none,
        logs := state.logs ++ [.steal_success pa.sourceId (pa.targetId.getD "") amount] }
  else if pa.type = .exchange then
    match findPlayer state.players pa.sourceId with
    | none => state  -- source dereferences `find(...)!`
    | some source =>
      let dr := drawUpTo2 state.deck
      { state with
          players := state.players.map (fun p =>
            if p.id == pa.sourceId then { p with cards := source.cards ++ dr.1 } else p),
          deck := dr.2,
          phase := .EXCHANGE_SELECT,
          exchangePlayerId := some pa.sourceId,
          passedResponderIds := none,
          pendingAction := none,
          logs := state.logs ++ [.exchange_start pa.sourceId] }
  else state

/-- The `PASS` case of `applyAction`. -/
def applyPass (state : GameState) (passerId? : Option String) : GameState :=
  match state.phase, state.pendingAction with
  | .CHALLENGE_WINDOW, some pa =>
    let pendingResponders := getPendingResponders state
    if pendingResponders.length = 0 then state
    else
      match passerId? with
      | none => state
      | some passerId =>
        if passerId.isEmpty then state
        else
          match findPlayer state.players passerId with
          | none => state
          | some passer =>
            if !isAlive passer then state
            else if !pendingResponders.contains passerId then state
            else
              let passed := state.passedResponderIds.getD []
              if passed.contains passerId then state
              else
                let newPassed := passed ++ [passerId]
                if newPassed.length < pendingResponders.length then
                  { state with passedResponderIds := some newPassed }
                else applyPassEffect state pa
  | .BLOCK_RESPONSE, some pa =>
    if ¬ truthyStr pa.blockedBy then state
    else
      let b := pa.blockedBy.getD ""
      let blockResponders :=
        (state.players.filter (fun p => isAlive p && p.id != b)).map (fun p => p.id)
      if blockResponders.length = 0 then state
      else
        match passerId? with
        | none => state
        | some passerId =>
          if passerId.isEmpty then state
          else
            match findPlayer state.players passerId with
            | none => state
            | some passer =>
              if !isAlive passer then state
              else if passerId = b then state  -- blocker cannot pass on their own block
              else if !blockResponders.contains passerId then state
              else
                let passed := state.passedResponderIds.getD []
                if passed.contains passerId then state
                else
                  let newPassed := passed ++ [passerId]
                  if newPassed.length < blockResponders.length then
                    { state with passedResponderIds := some newPassed }
                  else
                    nextTurn { state with
                      passedResponderIds := none,
                      pendingAction := none,
                      logs := state.logs ++ [.block_accepted] }
  | _, _ => state

/-- The `BLOCK` case of `applyAction`. -/
def applyBlock (state : GameState) (blockerId : String) (blockRole : Option Role) : GameState :=
  match state.phase, state.pendingAction with
  | .CHALLENGE_WINDOW, some pa =>
    match findPlayer state.players blockerId with
    | none => state
    | some blocker =>
      if !isAlive blocker then state
      else if pa.type = .foreign_aid then
        { state with
            phase := .BLOCK_RESPONSE,
            pendingAction := some { pa with blockedBy := some blockerId, blockedByRole := some .duke },
            passedResponderIds := some [],
            logs := state.logs ++ [.block blockerId .duke] }
      else if pa.type = .assassinate ∧ (blockRole = some Role.contessa ∨ blockRole = none) then
        { state with
            phase := .BLOCK_RESPONSE,
            pendingAction := some { pa with blockedBy := some blockerId, blockedByRole := some .contessa },
            passedResponderIds := some [],
            logs := state.logs ++ [.block blockerId .contessa] }
      else if pa.type = .steal ∧ (blockRole = some Role.captain ∨ blockRole = some Role.ambassador) then
        { state with
            phase := .BLOCK_RESPONSE,
            pendingAction := some { pa with blockedBy := some blockerId, blockedByRole := blockRole },
            passedResponderIds := some [],
            logs := state.logs ++ [.block blockerId (blockRole.getD .captain)] }
      else state
  | _, _ => state

/-- The `CHALLENGE_WINDOW` section of the `CHALLENGE` case: the action
claim is resolved immediately against the claimant's hand. -/
def challengeActionCase (sh : Shuffler) (state : GameState) (challengerId : String)
    (pa : PendingAction) : GameState :=
  match findPlayer state.players pa.sourceId with
  | none => state  -- source dereferences `find(...)!`; absent in engine-produced states
  | some actor =>
    if pa.type = .tax then
      if actor.cards.contains (some .duke) then
        let afterReplace := replaceCard sh state pa.sourceId .duke
        { afterReplace with
            players := afterReplace.players.map (fun p =>
              if p.id == pa.sourceId then { p with coins := p.coins + 3 } else p),
            phase := .LOSE_CARD,
            victimId := some challengerId,
            pendingAction := none,
            passedResponderIds := none,
            logs := afterReplace.logs ++
              [.challenge_started challengerId pa.sourceId .duke,
               .challenge_fail challengerId pa.sourceId .duke challengerId,
               .tax_success pa.sourceId] }
      else
        { state with
            phase := .LOSE_CARD,
            victimId := some pa.sourceId,
            pendingAction := none,
            passedResponderIds := none,
            logs := state.logs ++
              [.challenge_started challengerId pa.sourceId .duke,
               .challenge_success challengerId pa.sourceId .duke] }
    else if pa.type = .assassinate then
      if actor.cards.contains (some .assassin) then
        let afterReplace := replaceCard sh state pa.sourceId .assassin
        { afterReplace with
            phase := .LOSE_CARD,
            victimId := some challengerId,
            deferredLoseCardVictimId := pa.targetId,  -- `pa.targetId ?? null`
            pendingAction := none,
            passedResponderIds := none,
            logs := afterReplace.logs ++
              [.challenge_started challengerId pa.sourceId .assassin,
               .challenge_fail challengerId pa.sourceId .assassin challengerId] }
      else
        { state with
            phase := .LOSE_CARD,
            victimId := some pa.sourceId,
            pendingAction := none,
            passedResponderIds := none,
            logs := state.logs ++
              [.challenge_started challengerId pa.sourceId .assassin,
               .challenge_success challengerId pa.sourceId .assassin] }
    else if pa.type = .steal then
      if actor.cards.contains (some .captain) then
        let afterReplace := replaceCard sh state pa.sourceId .captain
        { afterReplace with
            phase := .LOSE_CARD,
            victimId := some challengerId,
            pendingAction := none,
            passedResponderIds := none,
            logs := afterReplace.logs ++
              [.challenge_started challengerId pa.sourceId .captain,
               .challenge_fail challengerId pa.sourceId .captain challengerId] }
      else
        { state with
            phase := .LOSE_CARD,
            victimId := some pa.sourceId,
            pendingAction := none,
            passedResponderIds := none,
            logs := state.logs ++
              [.challenge_started challengerId pa.sourceId .captain,
               .challenge_success challengerId pa.sourceId .captain] }
    else if pa.type = .exchange then
      if actor.cards.contains (some .ambassador) then
        let afterReplace := replaceCard sh state pa.sourceId .ambassador
        { afterReplace with
            phase := .LOSE_CARD,
            victimId := some challengerId,
            deferredExchangeSourceId := some pa.sourceId,
            pendingAction := none,
            passedResponderIds := none,
            logs := afterReplace.logs ++
              [.challenge_started challengerId pa.sourceId .ambassador,
               .challenge_fail challengerId pa.sourceId .ambassador challengerId] }
      else
        { state with
            phase := .LOSE_CARD,
            victimId := some pa.sourceId,
            pendingAction := none,
            passedResponderIds := none,
            logs := state.logs ++
              [.challenge_started challengerId pa.sourceId .ambassador,
               .challenge_success challengerId pa.sourceId .ambassador] }
    else state

/-- The `BLOCK_RESPONSE` section of the `CHALLENGE` case: the block claim is
resolved against the blocker's hand, `b` being the (truthy) `pa.blockedBy`. -/
def challengeBlockCase (sh : Shuffler) (state : GameState) (challengerId : String)
    (pa : PendingAction) (b : String) : GameState :=
  match findPlayer state.players b with
  | none => state  -- source dereferences `find(...)!`
  | some blocker =>
    let claimedRole := pa.blockedByRole.getD .duke
    if blocker.cards.contains (some claimedRole) then
      let afterReplace := replaceCard sh state b claimedRole
      { afterReplace with
          phase := .LOSE_CARD,
          victimId := some pa.sourceId,
          pendingAction := none,
          logs := afterReplace.logs ++
            [.challenge_started challengerId b claimedRole,
             .challenge_fail challengerId b claimedRole pa.sourceId] }
    else
      -- Block fails; blocker loses 1 for lying, then original action effect applies
      let updatedPlayers :=
        if pa.type = .foreign_aid then
          state.players.map (fun p =>
            if p.id == pa.sourceId then { p with coins := p.coins + 2 } else p)
        else state.players
      let finish := fun (ups : List Player) =>
        { state with
            players := ups,
            phase := .LOSE_CARD,
            victimId := some b,
            pendingAction := none,
            logs := state.logs ++
              [.challenge_started challengerId b claimedRole,
               .challenge_success challengerId b claimedRole] }
      if pa.type = .steal ∧ truthyStr pa.targetId then
        match findPlayer state.players (pa.targetId.getD "") with
        | none => state  -- source dereferences `find(...)!`
        | some target =>
          let amount := min 2 (max 0 target.coins)
          finish (updatedPlayers.map (fun p =>
            if p.id == pa.sourceId then { p with coins := p.coins + amount }
            else if p.id == pa.targetId.getD "" then { p with coins := p.coins - amount }
            else p))
      else if pa.type = .assassinate then
        -- blocker loses 1 now; target must lose 1 next (deferred) —
        -- only if they'll still have a card to lose
        let assassinateTargetId := match pa.targetId with | some t => t | none => b
        let isSamePerson := b = assassinateTargetId
        let willHaveCardAfterFirstLoss :=
          if isSamePerson then blocker.cards.length > 1 else True
        { state with
            players := updatedPlayers,
            phase := .LOSE_CARD,
            victimId := some b,
            deferredLoseCardVictimId :=
              if willHaveCardAfterFirstLoss then some assassinateTargetId else none,
            pendingAction := none,
            logs := state.logs ++
              [.challenge_started challengerId b claimedRole,
               .challenge_success challengerId b claimedRole] }
      else finish updatedPlayers

/-- The `CHALLENGE` case of `applyAction`. -/
def applyChallenge (sh : Shuffler) (state : GameState) (challengerId : String) : GameState :=
  match findPlayer state.players challengerId with
  | none => state
  | some challenger =>
    if !isAlive challenger then state
    else
      match state.phase, state.pendingAction with
      | .CHALLENGE_WINDOW, some pa => challengeActionCase sh state challengerId pa
      | .BLOCK_RESPONSE, some pa =>
        if truthyStr pa.blockedBy then
          challengeBlockCase sh state challengerId pa (pa.blockedBy.getD "")
        else state
      | _, _ => state

/-- Filter `cards.filter((_, idx) => idx !== i && idx !== j)`. -/
def filterOutIdx (l : List Card) (i j : Int) : List Card :=
  (l.enum.filter (fun kc => ((kc.1 : Int) != i) && ((kc.1 : Int) != j))).map (fun kc => kc.2)

/-- The `EXCHANGE_RETURN` case of `applyAction`. -/
def applyExchangeReturn (sh : Shuffler) (state : GameState) (playerId : String)
    (i j : Int) : GameState :=
  if state.phase ≠ .EXCHANGE_SELECT then state
  else if state.exchangePlayerId ≠ some playerId then state
  else
    match findPlayer state.players playerId with
    | none => state  -- source dereferences `find(...)!`
    | some player =>
      let returned := [idxJS player.cards i, idxJS player.cards j]
      let newCards := filterOutIdx player.cards i j
      let newDeck := sh (state.deck ++ returned)
      nextTurn { state with
        players := state.players.map (fun p =>
          if p.id == playerId then { p with cards := newCards } else p),
        deck := newDeck,
        exchangePlayerId := none,
        exchangeDrawnCards := none,
        logs := state.logs ++ [.exchange_done playerId] }

/-- The `LOSE_CARD` case of `applyAction`, including the deferred second
discard and the deferred exchange continuations. -/
def applyLoseCard (state : GameState) (playerId : String) (cardIndex : Int) : GameState :=
  if state.victimId ≠ some playerId then state
  else
    match findPlayer state.players playerId with
    | none => state
    | some player =>
      let updatedPlayer := killPlayerCard player cardIndex
      let updatedPlayers := state.players.map (fun p =>
        if p.id == playerId then updatedPlayer else p)
      let newState := { state with
        players := updatedPlayers, phase := .ACTION_SELECTION, victimId := none }
      let finalState := checkWinCondition newState
      if finalState.phase = .GAME_OVER then finalState
      else if truthyStr finalState.deferredLoseCardVictimId then
        -- Deferred lose card: chain a second LOSE_CARD only if the deferred
        -- victim still has a card to lose
        let nextVictimId := finalState.deferredLoseCardVictimId.getD ""
        match findPlayer finalState.players nextVictimId with
        | none =>
          let cleared := { finalState with deferredLoseCardVictimId := none }
          let afterWinCheck := checkWinCondition cleared
          if afterWinCheck.phase = .GAME_OVER then afterWinCheck else nextTurn cleared
        | some nextVictim =>
          if nextVictim.cards.length = 0 then
            let cleared := { finalState with deferredLoseCardVictimId := none }
            let afterWinCheck := checkWinCondition cleared
            if afterWinCheck.phase = .GAME_OVER then afterWinCheck else nextTurn cleared
          else
            { finalState with
                victimId := some nextVictimId,
                deferredLoseCardVictimId := none,
                phase := .LOSE_CARD }
      else if truthyStr finalState.deferredExchangeSourceId then
        -- Deferred exchange: after challenger lost card on Exchange
        -- challenge fail, do exchange now
        let srcId := finalState.deferredExchangeSourceId.getD ""
        match findPlayer finalState.players srcId with
        | none => finalState  -- source dereferences `find(...)!`
        | some source =>
          let dr := drawUpTo2 finalState.deck
          { finalState with
              players := finalState.players.map (fun p =>
                if p.id == srcId then { p with cards := source.cards ++ dr.1 } else p),
              deck := dr.2,
              phase := .EXCHANGE_SELECT,
              exchangePlayerId := finalState.deferredExchangeSourceId,
              deferredExchangeSourceId := none,
              pendingAction := none,
              victimId := none,
              logs := finalState.logs ++ [.exchange_start srcId] }
      else nextTurn finalState

/-- Entry point `applyAction`: the engine's transition function.  The `Shuffler`
argument supplies the outcome of any `Math.random()`-driven reshuffle the
handled command performs. -/
def applyAction (sh : Shuffler) (state : GameState) (action : Command) : GameState :=
  if state.phase = .GAME_OVER then state
  else
    match state.players.get? state.turnIndex with
    | none => state
    | some currentPlayer =>
      if !isAlive currentPlayer then state
      else
        match action with
        | .SUBMIT_ACTION a t => applySubmitAction state currentPlayer a t
        | .PASS pid => applyPass state pid
        | .BLOCK pid role => applyBlock state pid role
        | .CHALLENGE pid => applyChallenge sh state pid
        | .EXCHANGE_RETURN pid i j => applyExchangeReturn sh state pid i j
        | .LOSE_CARD pid idx => applyLoseCard state pid idx

/-! ## Observers used by the specification's properties -/

/-- Number of tokens of role `r` across the deck, every hand and every
`lostCards` pile (the spec's conservation quantity; `undefined` slots carry
no role token). -/
def roleCount (s : GameState) (r : Role) : Nat :=
  s.deck.count (some r) +
    (s.players.map (fun p => p.cards.count (some r) + p.lostCards.count (some r))).sum

/-- Coins of the (first) player with the given id in a player list. -/
def getCoinsP (players : List Player) (pid : String) : Option Int :=
  (findPlayer players pid).map (fun p => p.coins)

/-- Coins of the (first) player with the given id. -/
def getCoins (s : GameState) (pid : String) : Option Int :=
  getCoinsP s.players pid

/-- Hand size of the (first) player with the given id in a player list. -/
def handSizeP (players : List Player) (pid : String) : Option Nat :=
  (findPlayer players pid).map (fun p => p.cards.length)

/-- Hand size of the (first) player with the given id. -/
def handSize (s : GameState) (pid : String) : Option Nat :=
  handSizeP s.players pid

/-- Whether seat `i` holds a living player. -/
def isAliveAt (players : List Player) (i : Nat) : Bool :=
  ((players.get? i).map isAlive).getD false

/-- The role a pending action implicitly claims
(Tax→Duke, Assassinate→Assassin, Steal→Captain, Exchange→Ambassador). -/
def claimedRoleFor : ActionType → Option Role
  | .tax => some .duke
  | .assassinate => some .assassin
  | .steal => some .captain
  | .exchange => some .ambassador
  | _ => none

/-- The identity reordering: one possible outcome of the comparator shuffle. -/
def shId : Shuffler := fun l => l

/-- The reversing reordering: another possible outcome of the comparator
shuffle. -/
def shRev : Shuffler := fun l => l.reverse

/-! ## Guard lemmas for `applyAction` -/

theorem applyAction_gameOver (sh : Shuffler) (s : GameState) (cmd : Command)
    (h : s.phase = .GAME_OVER) : applyAction sh s cmd = s := by
  simp [applyAction, h]

theorem applyAction_noCurrent (sh : Shuffler) (s : GameState) (cmd : Command)
    (h1 : s.phase ≠ .GAME_OVER) (h2 : s.players[s.turnIndex]? = none) :
    applyAction sh s cmd = s := by
  simp [applyAction, h1, h2]

theorem applyAction_deadCurrent (sh : Shuffler) (s : GameState) (cmd : Command)
    (cur : Player) (h1 : s.phase ≠ .GAME_OVER)
    (h2 : s.players[s.turnIndex]? = some cur) (h3 : isAlive cur = false) :
    applyAction sh s cmd = s := by
  simp [applyAction, h1, h2, h3]

theorem applyAction_challenge_eq (sh : Shuffler) (s : GameState) (cid : String)
    (cur : Player) (h1 : s.phase ≠ .GAME_OVER)
    (h2 : s.players[s.turnIndex]? = some cur) (h3 : isAlive cur = true) :
    applyAction sh s (.CHALLENGE cid) = applyChallenge sh s cid := by
  simp [applyAction, h1, h2, h3]

theorem applyAction_pass_eq (sh : Shuffler) (s : GameState) (pid : Option String)
    (cur : Player) (h1 : s.phase ≠ .GAME_OVER)
    (h2 : s.players[s.turnIndex]? = some cur) (h3 : isAlive cur = true) :
    applyAction sh s (.PASS pid) = applyPass s pid := by
  simp [applyAction, h1, h2, h3]

theorem applyAction_loseCard_eq (sh : Shuffler) (s : GameState) (pid : String)
    (idx : Int) (cur : Player) (h1 : s.phase ≠ .GAME_OVER)
    (h2 : s.players[s.turnIndex]? = some cur) (h3 : isAlive cur = true) :
    applyAction sh s (.LOSE_CARD pid idx) = applyLoseCard s pid idx := by
  simp [applyAction, h1, h2, h3]

theorem applyAction_exchangeReturn_eq (sh : Shuffler) (s : GameState)
    (pid : String) (i j : Int) (cur : Player) (h1 : s.phase ≠ .GAME_OVER)
    (h2 : s.players[s.turnIndex]? = some cur) (h3 : isAlive cur = true) :
    applyAction sh s (.EXCHANGE_RETURN pid i j) = applyExchangeReturn sh s pid i j := by
  simp [applyAction, h1, h2, h3]

/-! ## Concrete states used to exercise the engine -/

/-- Shorthand for a concrete player (name = id, stored liveness flag in
sync with the hand). -/
def mkPlayer (pid : String) (coins : Int) (cards lostCards : List Card) : Player :=
  { id := pid, name := pid, coins := coins, cards := cards,
    isAlive := !cards.isEmpty, lostCards := lostCards }

/-- A two-player game (identity shuffle outcome) after: `p1` submits
Exchange, `p2` passes (window unanimous), and `p1` returns card indices
`[0, 0]` — the same index twice. -/
def c2Trace : GameState :=
  applyAction shId
    (applyAction shId
      (applyAction shId (initializeGame shId "room" ["Alice", "Bob"] "p1")
        (.SUBMIT_ACTION .exchange none))
      (.PASS (some "p2")))
    (.EXCHANGE_RETURN "p1" 0 0)

/-- In `LOSE_CARD` with victim `p1` holding two cards. -/
def c6State : GameState :=
  { roomId := "room", hostPlayerId := "p1", phase := .LOSE_CARD,
    players := [mkPlayer "p1" 2 [some .duke, some .contessa] [],
                mkPlayer "p2" 2 [some .captain] [some .assassin]],
    turnIndex := 1,
    deck := [some .duke, some .duke, some .assassin, some .assassin, some .captain,
             some .captain, some .ambassador, some .ambassador, some .ambassador,
             some .contessa, some .contessa],
    pendingAction := none, logs := [], winnerId := none, victimId := some "p1" }

/-- In `EXCHANGE_SELECT` for `p1`. -/
def c9State : GameState :=
  { roomId := "room", hostPlayerId := "p1", phase := .EXCHANGE_SELECT,
    players := [mkPlayer "p1" 2 [some .duke, some .assassin, some .captain, some .ambassador] [],
                mkPlayer "p2" 2 [some .contessa] [some .contessa]],
    turnIndex := 0,
    deck := [some .duke, some .duke, some .assassin, some .assassin, some .captain,
             some .captain, some .ambassador, some .ambassador, some .contessa],
    pendingAction := none, logs := [], winnerId := none, victimId := none,
    exchangePlayerId := some "p1" }

/-- In `CHALLENGE_WINDOW` over `p1`'s Steal against `p2`, `p1` truthfully
holding the Captain. -/
def c1State : GameState :=
  { roomId := "room", hostPlayerId := "p1", phase := .CHALLENGE_WINDOW,
    players := [mkPlayer "p1" 2 [some .captain, some .duke] [],
                mkPlayer "p2" 2 [some .contessa, some .contessa] []],
    turnIndex := 0,
    deck := [some .duke, some .duke, some .assassin, some .assassin, some .assassin,
             some .captain, some .captain, some .ambassador, some .ambassador,
             some .ambassador, some .contessa],
    pendingAction :=
      some { type := .steal, sourceId := "p1", targetId := some "p2" },
    logs := [], winnerId := none, victimId := none,
    passedResponderIds := some [] }

/-- A reachable seven-player endgame: after dealing (identity shuffle
outcome) the deck holds a single card; each of `p1`…`p6` makes a false Tax
claim that `p7` challenges, costing them one influence per round (`p1`
only once, `p2`…`p6` twice), `p7` takes Income on its turns, and finally
`p1` — down to one card — exchanges: with one card drawn `p1` holds two
cards in `EXCHANGE_SELECT`, two players still living. -/
def c4Cmds : List Command :=
  [.SUBMIT_ACTION .tax none, .CHALLENGE "p7", .LOSE_CARD "p1" 0,
   .SUBMIT_ACTION .tax none, .CHALLENGE "p7", .LOSE_CARD "p2" 0,
   .SUBMIT_ACTION .tax none, .CHALLENGE "p7", .LOSE_CARD "p3" 0,
   .SUBMIT_ACTION .tax none, .CHALLENGE "p7", .LOSE_CARD "p4" 0,
   .SUBMIT_ACTION .tax none, .CHALLENGE "p7", .LOSE_CARD "p5" 0,
   .SUBMIT_ACTION .tax none, .CHALLENGE "p7", .LOSE_CARD "p6" 0,
   .SUBMIT_ACTION .income none,
   .SUBMIT_ACTION .income none,
   .SUBMIT_ACTION .tax none, .CHALLENGE "p7", .LOSE_CARD "p2" 0,
   .SUBMIT_ACTION .tax none, .CHALLENGE "p7", .LOSE_CARD "p3" 0,
   .SUBMIT_ACTION .tax none, .CHALLENGE "p7", .LOSE_CARD "p4" 0,
   .SUBMIT_ACTION .tax none, .CHALLENGE "p7", .LOSE_CARD "p5" 0,
   .SUBMIT_ACTION .tax none, .CHALLENGE "p7", .LOSE_CARD "p6" 0,
   .SUBMIT_ACTION .income none,
   .SUBMIT_ACTION .exchange none, .PASS (some "p7")]

/-- The state reached by `c4Cmds` from a seven-player `initializeGame`. -/
def c4Pre : GameState :=
  c4Cmds.foldl (applyAction shId)
    (initializeGame shId "room" ["A", "B", "C", "D", "E", "F", "G"] "p1")

/-- In `CHALLENGE_WINDOW` over `p1`'s own Tax claim, `p1` holding the Duke. -/
def c7State : GameState :=
  { roomId := "room", hostPlayerId := "p1", phase := .CHALLENGE_WINDOW,
    players := [mkPlayer "p1" 2 [some .duke, some .contessa] [],
                mkPlayer "p2" 2 [some .captain] [some .captain]],
    turnIndex := 0,
    deck := [some .duke, some .duke, some .assassin, some .assassin, some .assassin,
             some .captain, some .ambassador, some .ambassador, some .ambassador,
             some .contessa, some .contessa],
    pendingAction :=
      some { type := .tax, sourceId := "p1" },
    logs := [], winnerId := none, victimId := none,
    passedResponderIds := some [] }

/-! ## C2 — card conservation -/

/-- C2 (failing input): starting from `initializeGame`, the reachable
command sequence Exchange → unanimous pass → `EXCHANGE_RETURN` with
indices `[0, 0]` removes one card from the hand but returns two copies of
it to the deck: the Contessa count rises from 3 to 4.  Conservation is
violated, so the claimed invariant fails on the code. -/
theorem exchangeReturn_duplicates_card :
    roleCount (initializeGame shId "room" ["Alice", "Bob"] "p1") .contessa = 3 ∧
    (c2Trace.phase = .ACTION_SELECTION ∧ roleCount c2Trace .contessa = 4) := by
  decide

/-! ## C6 — LOSE_CARD index validation -/

/-- C6 (failing input): a `LOSE_CARD` with out-of-range index is *not* a
no-op.  `cardIndex = -1` removes the victim's *last* card (JavaScript
`splice` counts negative starts from the end); `cardIndex = 5` removes no
card but still pushes `undefined` onto `lostCards`, clears the victim and
advances the turn. -/
theorem loseCard_out_of_range_not_noop :
    (applyAction shId c6State (.LOSE_CARD "p1" (-1)) ≠ c6State ∧
      handSize (applyAction shId c6State (.LOSE_CARD "p1" (-1))) "p1" = some 1 ∧
      (applyAction shId c6State (.LOSE_CARD "p1" (-1))).phase = .ACTION_SELECTION) ∧
    (applyAction shId c6State (.LOSE_CARD "p1" 5) ≠ c6State ∧
      handSize (applyAction shId c6State (.LOSE_CARD "p1" 5)) "p1" = some 2 ∧
      (findPlayer (applyAction shId c6State (.LOSE_CARD "p1" 5)).players "p1").map
        (fun p => p.lostCards) = some [none] ∧
      (applyAction shId c6State (.LOSE_CARD "p1" 5)).phase = .ACTION_SELECTION) := by
  decide

/-! ## C9 — determinism -/

/-- C9 (counterexample): two legitimate outcomes of the random comparator
shuffle (identity and reversal — both permutations, as any `sort` result
is) give *different* output states for the same input state and the same
`EXCHANGE_RETURN` command: the reshuffled deck ordering depends on
`Math.random()`, not only on `(state, command)`. -/
theorem applyAction_not_deterministic :
    IsShuffler shId ∧ IsShuffler shRev ∧
      applyAction shId c9State (.EXCHANGE_RETURN "p1" 0 1) ≠
        applyAction shRev c9State (.EXCHANGE_RETURN "p1" 0 1) := by
  refine ⟨fun l => List.Perm.refl l, fun l => List.reverse_perm l, ?_⟩
  decide

/-- C9 (amended): the transition is deterministic in `(state, command)`
for every command that performs no reshuffle — `SUBMIT_ACTION`, `PASS`,
`BLOCK` and `LOSE_CARD` outputs are independent of the random source; only
`CHALLENGE` (card replacement) and `EXCHANGE_RETURN` consult it. -/
theorem applyAction_deterministic_without_shuffle (sh1 sh2 : Shuffler)
    (s : GameState) (a : ActionType) (t pid : Option String) (bid : String)
    (brole : Option Role) (lid : String) (idx : Int) :
    applyAction sh1 s (.SUBMIT_ACTION a t) = applyAction sh2 s (.SUBMIT_ACTION a t) ∧
    applyAction sh1 s (.PASS pid) = applyAction sh2 s (.PASS pid) ∧
    applyAction sh1 s (.BLOCK bid brole) = applyAction sh2 s (.BLOCK bid brole) ∧
    applyAction sh1 s (.LOSE_CARD lid idx) = applyAction sh2 s (.LOSE_CARD lid idx) :=
  ⟨rfl, rfl, rfl, rfl⟩

/-! ## C7 — challenge eligibility -/

/-- C7 (counterexample): the pending action's *own source* is not rejected:
`p1`, holding the Duke and claiming Tax, challenges their own claim, and
the engine resolves it (Tax is credited, `p1` becomes the discard victim)
instead of returning the state unchanged. -/
theorem challenge_by_source_not_noop :
    applyAction shId c7State (.CHALLENGE "p1") ≠ c7State ∧
      (applyAction shId c7State (.CHALLENGE "p1")).phase = .LOSE_CARD ∧
      (applyAction shId c7State (.CHALLENGE "p1")).victimId = some "p1" ∧
      getCoins (applyAction shId c7State (.CHALLENGE "p1")) "p1" = some 5 := by
  decide

/-- C7 (amended): in a `CHALLENGE_WINDOW` with a pending action, a
`CHALLENGE` from an unknown or dead player returns the state unchanged;
the engine does *not* additionally exclude the pending action's source —
any living player (the actor included) triggers challenge resolution. -/
theorem challenge_dead_or_unknown_noop (sh : Shuffler) (s : GameState)
    (pa : PendingAction) (cid : String)
    (hphase : s.phase = .CHALLENGE_WINDOW) (hpa : s.pendingAction = some pa)
    (hchal : findPlayer s.players cid = none ∨
      ∃ c, findPlayer s.players cid = some c ∧ isAlive c = false) :
    applyAction sh s (.CHALLENGE cid) = s := by
  have hng : s.phase ≠ .GAME_OVER := by rw [hphase]; intro h; cases h
  rcases h2 : s.players[s.turnIndex]? with _ | cur
  · exact applyAction_noCurrent sh s _ hng h2
  rcases h3 : isAlive cur with _ | _
  · exact applyAction_deadCurrent sh s _ cur hng h2 h3
  rw [applyAction_challenge_eq sh s cid cur hng h2 h3]
  rcases hchal with hnone | ⟨c, hc, hdead⟩
  · simp [applyChallenge, hnone]
  · simp [applyChallenge, hc, hdead]

/-! ## Support lemmas about player lookups and `replaceCard` -/

theorem findPlayer_some_id {l : List Player} {pid : String} {p : Player}
    (h : findPlayer l pid = some p) : p.id = pid := by
  have := List.find?_some h
  simpa using this

theorem findPlayer_map {l : List Player} (pid : String) (f : Player → Player)
    (hf : ∀ p, (f p).id = p.id) :
    findPlayer (l.map f) pid = (findPlayer l pid).map f := by
  unfold findPlayer
  have hpred : ((fun p : Player => p.id == pid) ∘ f) = (fun p : Player => p.id == pid) := by
    funext p
    simp [Function.comp, hf]
  rw [List.find?_map, hpred]

theorem length_erase_add_one {cards : List Card} {r : Role}
    (h : cards.contains (some r) = true) :
    (cards.erase (some r)).length + 1 = cards.length := by
  have hmem : (some r) ∈ cards := by simpa using h
  rw [List.length_erase_of_mem hmem]
  have hne : cards.length ≠ 0 := by
    rintro h0
    rw [List.length_eq_zero] at h0
    subst h0
    simp at hmem
  omega

theorem replaceCard_players {sh : Shuffler} {s : GameState} {pid : String}
    {r : Role} {actor : Player} (hfind : findPlayer s.players pid = some actor)
    (hcont : actor.cards.contains (some r) = true) :
    (replaceCard sh s pid r).players = s.players.map (fun p =>
      if p.id == pid then
        { p with cards := actor.cards.erase (some r) ++
            [(popJS (sh (s.deck ++ [some r]))).1] }
      else p) := by
  have hmem : (some r) ∈ actor.cards := by simpa using hcont
  simp [replaceCard, hfind, hcont, hmem]

theorem replaceCard_fields {sh : Shuffler} {s : GameState} {pid : String} {r : Role} :
    (replaceCard sh s pid r).phase = s.phase ∧
    (replaceCard sh s pid r).logs = s.logs ∧
    (replaceCard sh s pid r).victimId = s.victimId ∧
    (replaceCard sh s pid r).pendingAction = s.pendingAction := by
  unfold replaceCard
  rcases findPlayer s.players pid with _ | player
  · exact ⟨rfl, rfl, rfl, rfl⟩
  · dsimp only
    by_cases h : player.cards.contains (some r) = true
    · rw [if_pos h]
      exact ⟨rfl, rfl, rfl, rfl⟩
    · rw [if_neg h]
      exact ⟨rfl, rfl, rfl, rfl⟩

theorem handSize_replaceCard {sh : Shuffler} {s : GameState} {pid : String}
    {r : Role} {actor : Player} (hfind : findPlayer s.players pid = some actor)
    (hcont : actor.cards.contains (some r) = true) :
    handSize (replaceCard sh s pid r) pid = handSize s pid := by
  have hid : (actor.id == pid) = true := by
    simp [findPlayer_some_id hfind]
  unfold handSize handSizeP
  rw [replaceCard_players hfind hcont,
    findPlayer_map pid _ (fun p => by split <;> rfl), hfind]
  simp only [Option.map_some', Option.map_map]
  rw [hid]
  simp [length_erase_add_one hcont]

theorem getCoins_replaceCard (sh : Shuffler) (s : GameState) (pid : String)
    (r : Role) (q : String) : getCoins (replaceCard sh s pid r) q = getCoins s q := by
  unfold getCoins getCoinsP replaceCard
  rcases hf : findPlayer s.players pid with _ | player
  · rfl
  by_cases h : player.cards.contains (some r) = true
  · simp only [h, if_true]
    rw [findPlayer_map q _ (fun p => by split <;> rfl)]
    rcases findPlayer s.players q with _ | x
    · rfl
    · dsimp only [Option.map_some']
      split <;> rfl
  · have hm : ¬ (some r ∈ player.cards) := by simpa using h
    simp [h, hm]

theorem getCoinsP_map (l : List Player) (q : String) (f : Player → Player)
    (hid : ∀ p, (f p).id = p.id) (hcoins : ∀ p, (f p).coins = p.coins) :
    getCoinsP (l.map f) q = getCoinsP l q := by
  unfold getCoinsP
  rw [findPlayer_map q f hid]
  rcases findPlayer l q with _ | p
  · rfl
  · simp [hcoins]

theorem handSizeP_map (l : List Player) (q : String) (f : Player → Player)
    (hid : ∀ p, (f p).id = p.id) (hcards : ∀ p, (f p).cards = p.cards) :
    handSizeP (l.map f) q = handSizeP l q := by
  unfold handSizeP
  rw [findPlayer_map q f hid]
  rcases findPlayer l q with _ | p
  · rfl
  · simp [hcards]

/-! ## C1 — challenge truth table -/

/-- C1 (amended): in a `CHALLENGE_WINDOW`, a `CHALLENGE` from a living
player resolves against the claimant's hand.  If the claimant holds the
claimed role (Tax→Duke, Assassinate→Assassin, Steal→Captain,
Exchange→Ambassador) the result is `LOSE_CARD` with the challenger as
victim, the claimant's hand size is unchanged (card replaced, not
removed), coins are credited immediately for Tax, and
`deferredExchangeSourceId` is armed for Exchange — but for Steal *no*
coins are transferred (the engine drops the steal effect after a failed
challenge).  If the claimant lacks the role, the claimant becomes the
victim and nothing else changes (players and deck untouched). -/
theorem challenge_truth_table (sh : Shuffler) (s : GameState) (pa : PendingAction)
    (cid : String) (cur challenger actor : Player) (r : Role)
    (hphase : s.phase = .CHALLENGE_WINDOW)
    (hpa : s.pendingAction = some pa)
    (hcur : s.players[s.turnIndex]? = some cur)
    (hcuralive : isAlive cur = true)
    (hchal : findPlayer s.players cid = some challenger)
    (hchalalive : isAlive challenger = true)
    (hactor : findPlayer s.players pa.sourceId = some actor)
    (hrole : claimedRoleFor pa.type = some r) :
    (actor.cards.contains (some r) = true →
      (applyAction sh s (.CHALLENGE cid)).phase = .LOSE_CARD ∧
      (applyAction sh s (.CHALLENGE cid)).victimId = some cid ∧
      handSize (applyAction sh s (.CHALLENGE cid)) pa.sourceId = handSize s pa.sourceId ∧
      (pa.type = .tax →
        getCoins (applyAction sh s (.CHALLENGE cid)) pa.sourceId =
          (getCoins s pa.sourceId).map (fun c => c + 3)) ∧
      (pa.type = .exchange →
        (applyAction sh s (.CHALLENGE cid)).deferredExchangeSourceId = some pa.sourceId) ∧
      (pa.type = .steal →
        ∀ q, getCoins (applyAction sh s (.CHALLENGE cid)) q = getCoins s q)) ∧
    (actor.cards.contains (some r) = false →
      (applyAction sh s (.CHALLENGE cid)).phase = .LOSE_CARD ∧
      (applyAction sh s (.CHALLENGE cid)).victimId = some pa.sourceId ∧
      (applyAction sh s (.CHALLENGE cid)).players = s.players ∧
      (applyAction sh s (.CHALLENGE cid)).deck = s.deck) := by
  have hng : s.phase ≠ .GAME_OVER := by rw [hphase]; intro h; cases h
  rw [applyAction_challenge_eq sh s cid cur hng hcur hcuralive]
  have hred : applyChallenge sh s cid = challengeActionCase sh s cid pa := by
    unfold applyChallenge
    rw [hchal]
    simp [hchalalive, hphase, hpa]
  rw [hred]
  obtain ⟨pt, src, tgt, bby, brole⟩ := pa
  dsimp only at hactor hrole ⊢
  cases pt <;> simp only [claimedRoleFor] at hrole <;> try exact Option.noConfusion hrole
  case tax =>
    have hr : r = .duke := by injection hrole with h; exact h.symm
    subst hr
    unfold challengeActionCase
    rw [hactor]
    dsimp only
    rw [if_pos rfl]
    constructor
    · intro hc
      rw [if_pos hc]
      refine ⟨rfl, rfl, ?_, ?_, ?_, ?_⟩
      · unfold handSize
        dsimp only
        rw [handSizeP_map _ _ _ (fun p => by split <;> rfl) (fun p => by split <;> rfl)]
        exact handSize_replaceCard hactor hc
      · intro _
        unfold getCoins
        dsimp only
        unfold getCoinsP
        rw [findPlayer_map _ _ (fun p => by split <;> rfl)]
        have h2 : findPlayer (replaceCard sh s src .duke).players src =
            some { actor with cards := actor.cards.erase (some .duke) ++
              [(popJS (sh (s.deck ++ [some .duke]))).1] } := by
          rw [replaceCard_players hactor hc,
            findPlayer_map _ _ (fun p => by split <;> rfl), hactor]
          simp [findPlayer_some_id hactor]
        rw [h2, hactor]
        simp [findPlayer_some_id hactor]
      · intro h
        exact absurd h (by decide)
      · intro h
        exact absurd h (by decide)
    · intro hc
      rw [if_neg (by rw [hc]; decide)]
      exact ⟨rfl, rfl, rfl, rfl⟩
  case assassinate =>
    have hr : r = .assassin := by injection hrole with h; exact h.symm
    subst hr
    unfold challengeActionCase
    rw [hactor]
    dsimp only
    rw [if_neg (by decide), if_pos rfl]
    constructor
    · intro hc
      rw [if_pos hc]
      refine ⟨rfl, rfl, ?_, ?_, ?_, ?_⟩
      · unfold handSize
        dsimp only
        exact handSize_replaceCard hactor hc
      · intro h
        exact absurd h (by decide)
      · intro h
        exact absurd h (by decide)
      · intro h
        exact absurd h (by decide)
    · intro hc
      rw [if_neg (by rw [hc]; decide)]
      exact ⟨rfl, rfl, rfl, rfl⟩
  case steal =>
    have hr : r = .captain := by injection hrole with h; exact h.symm
    subst hr
    unfold challengeActionCase
    rw [hactor]
    dsimp only
    rw [if_neg (by decide), if_neg (by decide), if_pos rfl]
    constructor
    · intro hc
      rw [if_pos hc]
      refine ⟨rfl, rfl, ?_, ?_, ?_, ?_⟩
      · unfold handSize
        dsimp only
        exact handSize_replaceCard hactor hc
      · intro h
        exact absurd h (by decide)
      · intro h
        exact absurd h (by decide)
      · intro _ q
        exact getCoins_replaceCard sh s src .captain q
    · intro hc
      rw [if_neg (by rw [hc]; decide)]
      exact ⟨rfl, rfl, rfl, rfl⟩
  case exchange =>
    have hr : r = .ambassador := by injection hrole with h; exact h.symm
    subst hr
    unfold challengeActionCase
    rw [hactor]
    dsimp only
    rw [if_neg (by decide), if_neg (by decide), if_neg (by decide), if_pos rfl]
    constructor
    · intro hc
      rw [if_pos hc]
      refine ⟨rfl, rfl, ?_, ?_, ?_, ?_⟩
      · unfold handSize
        dsimp only
        exact handSize_replaceCard hactor hc
      · intro h
        exact absurd h (by decide)
      · intro _
        rfl
      · intro h
        exact absurd h (by decide)
    · intro hc
      rw [if_neg (by rw [hc]; decide)]
      exact ⟨rfl, rfl, rfl, rfl⟩


/-- Witness for the amended C1 truth table at the concrete Steal state:
the truthful branch applies with challenger `p2`. -/
theorem challenge_truth_table_witness :
    (applyAction shId c1State (.CHALLENGE "p2")).phase = .LOSE_CARD ∧
    (applyAction shId c1State (.CHALLENGE "p2")).victimId = some "p2" ∧
    handSize (applyAction shId c1State (.CHALLENGE "p2")) "p1" = handSize c1State "p1" ∧
    (∀ q, getCoins (applyAction shId c1State (.CHALLENGE "p2")) q = getCoins c1State q) := by
  have h := challenge_truth_table shId c1State
    { type := .steal, sourceId := "p1", targetId := some "p2" } "p2"
    (mkPlayer "p1" 2 [some .captain, some .duke] [])
    (mkPlayer "p2" 2 [some .contessa, some .contessa] [])
    (mkPlayer "p1" 2 [some .captain, some .duke] [])
    .captain (by decide) (by decide) (by decide) (by decide) (by decide) (by decide)
    (by decide) (by decide)
  obtain ⟨ht, _⟩ := h
  obtain ⟨h1, h2, h3, _, _, h6⟩ := ht (by decide)
  exact ⟨h1, h2, h3, h6 (by decide)⟩

/-- Witness for the amended C7 no-op at a concrete input: a challenge from
an id matching no player leaves the state unchanged. -/
theorem challenge_dead_or_unknown_noop_witness :
    applyAction shId c7State (.CHALLENGE "p9") = c7State :=
  challenge_dead_or_unknown_noop shId c7State { type := .tax, sourceId := "p1" } "p9"
    (by decide) (by decide) (Or.inl (by decide))

/-- C1 (counterexample): a truthful Steal claim is challenged and the
challenge fails (`p2` becomes the victim), yet *no* coins move — the claim's
"coins credited immediately for … Steal" is false on the code. -/
theorem challenge_steal_coins_not_credited :
    (applyAction shId c1State (.CHALLENGE "p2")).phase = .LOSE_CARD ∧
    (applyAction shId c1State (.CHALLENGE "p2")).victimId = some "p2" ∧
    getCoins c1State "p1" = some 2 ∧ getCoins c1State "p2" = some 2 ∧
    getCoins (applyAction shId c1State (.CHALLENGE "p2")) "p1" = some 2 ∧
    getCoins (applyAction shId c1State (.CHALLENGE "p2")) "p2" = some 2 := by
  decide

/-! ## C4 — win trigger and terminal freeze -/

set_option maxRecDepth 40000 in
/-- C4 (counterexample): from a reachable state, an `EXCHANGE_RETURN` that
returns the exchanger's whole hand reduces the number of players with
non-empty hands from 2 to 1, yet the resulting phase is
`ACTION_SELECTION` with no winner — the `EXCHANGE_RETURN` path never runs
the win checker. -/
theorem exchangeReturn_elimination_skips_win_check :
    c4Pre.phase = .EXCHANGE_SELECT ∧
    (c4Pre.players.filter isAlive).length = 2 ∧
    ((applyAction shId c4Pre (.EXCHANGE_RETURN "p1" 0 1)).players.filter isAlive).length = 1 ∧
    (applyAction shId c4Pre (.EXCHANGE_RETURN "p1" 0 1)).phase = .ACTION_SELECTION ∧
    (applyAction shId c4Pre (.EXCHANGE_RETURN "p1" 0 1)).winnerId = none := by
  decide

/-- C4 (amended): (i) every transition from a `GAME_OVER` state returns the
state unchanged; (ii) every `LOSE_CARD` resolution whose card removal
leaves exactly one player with a non-empty hand yields `GAME_OVER` with
that survivor as `winnerId` (the win check pre-empts any armed deferred
continuation).  Eliminations through `EXCHANGE_RETURN` (see the
counterexample) skip the win check. -/
theorem winTrigger_on_loseCard_and_terminal_freeze (sh : Shuffler) :
    (∀ (s : GameState) (cmd : Command), s.phase = .GAME_OVER → applyAction sh s cmd = s) ∧
    (∀ (s : GameState) (pid : String) (idx : Int) (cur player q : Player),
      s.phase ≠ .GAME_OVER →
      s.players[s.turnIndex]? = some cur → isAlive cur = true →
      s.victimId = some pid → findPlayer s.players pid = some player →
      (s.players.map (fun p => if p.id == pid then killPlayerCard player idx else p)).filter
        isAlive = [q] →
      (applyAction sh s (.LOSE_CARD pid idx)).phase = .GAME_OVER ∧
      (applyAction sh s (.LOSE_CARD pid idx)).winnerId = some q.id) := by
  constructor
  · exact fun s cmd h => applyAction_gameOver sh s cmd h
  · intro s pid idx cur player q hng hcur halive hv hfind hone
    rw [applyAction_loseCard_eq sh s pid idx cur hng hcur halive]
    unfold applyLoseCard
    rw [if_neg (by rw [hv]; exact fun h => h rfl), hfind]
    dsimp only
    unfold checkWinCondition
    dsimp only
    rw [hone]
    dsimp only
    rw [if_pos rfl]
    exact ⟨rfl, rfl⟩

/-- A finished game (survivor `p1`). -/
def c4OverState : GameState :=
  { roomId := "room", hostPlayerId := "p1", phase := .GAME_OVER,
    players := [mkPlayer "p1" 2 [some .duke] [some .assassin],
                mkPlayer "p2" 2 [] [some .captain, some .contessa]],
    turnIndex := 0,
    deck := [some .duke, some .duke, some .assassin, some .assassin, some .captain,
             some .captain, some .ambassador, some .ambassador, some .ambassador,
             some .contessa, some .contessa],
    pendingAction := none, logs := [], winnerId := some "p1", victimId := none }

/-- A `LOSE_CARD` pending against `p1`'s last influence, `p2` still alive. -/
def c4WinState : GameState :=
  { roomId := "room", hostPlayerId := "p1", phase := .LOSE_CARD,
    players := [mkPlayer "p1" 2 [some .duke] [some .assassin],
                mkPlayer "p2" 2 [some .captain] [some .contessa]],
    turnIndex := 0,
    deck := [some .duke, some .duke, some .assassin, some .assassin, some .captain,
             some .captain, some .ambassador, some .ambassador, some .ambassador,
             some .contessa, some .contessa],
    pendingAction := none, logs := [], winnerId := none, victimId := some "p1" }

/-- Witness for the amended C4 at concrete inputs: a command on a finished
game is a no-op, and `p1` discarding their last card crowns `p2`. -/
theorem winTrigger_witness :
    applyAction shId c4OverState (.PASS none) = c4OverState ∧
    (applyAction shId c4WinState (.LOSE_CARD "p1" 0)).phase = .GAME_OVER ∧
    (applyAction shId c4WinState (.LOSE_CARD "p1" 0)).winnerId = some "p2" := by
  have h := winTrigger_on_loseCard_and_terminal_freeze shId
  refine ⟨h.1 c4OverState (.PASS none) (by decide), ?_, ?_⟩
  · exact (h.2 c4WinState "p1" 0 (mkPlayer "p1" 2 [some .duke] [some .assassin])
      (mkPlayer "p1" 2 [some .duke] [some .assassin]) (mkPlayer "p2" 2 [some .captain] [some .contessa])
      (by decide) (by decide) (by decide) (by decide) (by decide) (by decide)).1
  · exact (h.2 c4WinState "p1" 0 (mkPlayer "p1" 2 [some .duke] [some .assassin])
      (mkPlayer "p1" 2 [some .duke] [some .assassin]) (mkPlayer "p2" 2 [some .captain] [some .contessa])
      (by decide) (by decide) (by decide) (by decide) (by decide) (by decide)).2

/-! ## C3 — unanimous pass -/

theorem truthyStr_some {t : String} (h : t ≠ "") : truthyStr (some t) = true := by
  have hie : t.isEmpty = false := by
    cases hh : t.isEmpty
    · rfl
    · unfold String.isEmpty at hh
      simp at hh
      exact absurd ((String.endPos_eq_zero t).mp hh) h
  simp [truthyStr, hie]

theorem nextTurn_players (s : GameState) : (nextTurn s).players = s.players := rfl

theorem nextTurn_phase (s : GameState) : (nextTurn s).phase = .ACTION_SELECTION := rfl

theorem drawUpTo2_length (d : List Card) : (drawUpTo2 d).1.length = min 2 d.length := by
  unfold drawUpTo2
  by_cases h0 : d.length = 0
  · simp [h0]
  · rw [if_neg h0]
    dsimp only
    by_cases h1 : ((popJS d).2).length = 0
    · rw [if_pos h1]
      have hd : d.length - 1 = 0 := by
        simpa [popJS, List.length_dropLast] using h1
      dsimp only [List.length_cons, List.length_nil]
      omega
    · rw [if_neg h1]
      have hd : ¬ (d.length - 1 = 0) := by
        simpa [popJS, List.length_dropLast] using h1
      dsimp only [List.length_cons, List.length_nil]
      omega

/-- C3: in a `CHALLENGE_WINDOW` with pending action `pa` and an eligible
living passer: (i) a duplicate `PASS` returns the state unchanged; (ii) a
fresh `PASS` that does not complete the responder set only appends the
passer to `passedResponderIds` (phase, players, coins and cards
untouched); (iii) the `PASS` that records the last missing responder
applies the pending effect — Tax/Foreign Aid credit coins and advance the
turn, Assassinate moves to `LOSE_CARD` against the target, Steal transfers
`min(2, target.coins)` and advances the turn, Exchange draws up to two
cards and enters `EXCHANGE_SELECT`. -/
theorem unanimous_pass (sh : Shuffler) (s : GameState) (pa : PendingAction)
    (passerId : String) (cur passer : Player)
    (hphase : s.phase = .CHALLENGE_WINDOW)
    (hpa : s.pendingAction = some pa)
    (hcur : s.players[s.turnIndex]? = some cur) (hcuralive : isAlive cur = true)
    (hne : passerId ≠ "")
    (hfind : findPlayer s.players passerId = some passer)
    (halive : isAlive passer = true)
    (helig : (getPendingResponders s).contains passerId = true) :
    ((s.passedResponderIds.getD []).contains passerId = true →
      applyAction sh s (.PASS (some passerId)) = s) ∧
    ((s.passedResponderIds.getD []).contains passerId = false →
      (s.passedResponderIds.getD []).length + 1 < (getPendingResponders s).length →
      applyAction sh s (.PASS (some passerId)) =
        { s with passedResponderIds := some (s.passedResponderIds.getD [] ++ [passerId]) }) ∧
    ((s.passedResponderIds.getD []).contains passerId = false →
      (s.passedResponderIds.getD []).length + 1 = (getPendingResponders s).length →
      applyAction sh s (.PASS (some passerId)) = applyPassEffect s pa ∧
      ((pa.type = .tax →
        getCoins (applyPassEffect s pa) pa.sourceId =
          (getCoins s pa.sourceId).map (fun c => c + 3) ∧
        (applyPassEffect s pa).phase = .ACTION_SELECTION) ∧
      (pa.type = .foreign_aid →
        getCoins (applyPassEffect s pa) pa.sourceId =
          (getCoins s pa.sourceId).map (fun c => c + 2) ∧
        (applyPassEffect s pa).phase = .ACTION_SELECTION) ∧
      (∀ t, pa.type = .assassinate → pa.targetId = some t → t ≠ "" →
        (applyPassEffect s pa).phase = .LOSE_CARD ∧
        (applyPassEffect s pa).victimId = some t) ∧
      (∀ t target, pa.type = .steal → pa.targetId = some t → t ≠ "" →
        t ≠ pa.sourceId → findPlayer s.players t = some target →
        getCoins (applyPassEffect s pa) pa.sourceId =
          (getCoins s pa.sourceId).map (fun c => c + min 2 (max 0 target.coins)) ∧
        getCoins (applyPassEffect s pa) t =
          some (target.coins - min 2 (max 0 target.coins)) ∧
        (applyPassEffect s pa).phase = .ACTION_SELECTION) ∧
      (∀ source, pa.type = .exchange →
        findPlayer s.players pa.sourceId = some source →
        (applyPassEffect s pa).phase = .EXCHANGE_SELECT ∧
        (applyPassEffect s pa).exchangePlayerId = some pa.sourceId ∧
        handSize (applyPassEffect s pa) pa.sourceId =
          some (source.cards.length + min 2 s.deck.length)))) := by
  have hng : s.phase ≠ .GAME_OVER := by rw [hphase]; intro h; cases h
  rw [applyAction_pass_eq sh s (some passerId) cur hng hcur hcuralive]
  have hmem : passerId ∈ getPendingResponders s := by simpa using helig
  have hlen0 : ¬ ((getPendingResponders s).length = 0) := by
    intro h0
    rw [List.length_eq_zero] at h0
    rw [h0] at hmem
    simp at hmem
  have hpass : applyPass s (some passerId) =
      (if (s.passedResponderIds.getD []).contains passerId = true then s
      else if (s.passedResponderIds.getD [] ++ [passerId]).length <
          (getPendingResponders s).length then
        { s with passedResponderIds := some (s.passedResponderIds.getD [] ++ [passerId]) }
      else applyPassEffect s pa) := by
    unfold applyPass
    rw [hphase]
    dsimp only
    rw [hpa]
    dsimp only
    rw [if_neg hlen0,
      if_neg (by simp [String.isEmpty_iff, hne]), hfind]
    dsimp only
    rw [if_neg (by simp [halive]), if_neg (by simp [hmem])]
  refine ⟨?_, ?_, ?_⟩
  · intro hdup
    rw [hpass, if_pos hdup]
  · intro hdup hlt
    rw [hpass, if_neg (by simpa using hdup), if_pos (by simpa using hlt)]
  · intro hdup hlast
    constructor
    · rw [hpass, if_neg (by simpa using hdup), if_neg (by simp [hlast])]
    refine ⟨?_, ?_, ?_, ?_, ?_⟩
    · intro htype
      unfold applyPassEffect
      rw [htype, if_pos rfl]
      refine ⟨?_, nextTurn_phase _⟩
      have : (nextTurn { s with
          players := s.players.map (fun p =>
            if p.id == pa.sourceId then { p with coins := p.coins + 3 } else p),
          passedResponderIds := none, pendingAction := none,
          logs := s.logs ++ [.tax_success pa.sourceId] }).players =
        s.players.map (fun p =>
          if p.id == pa.sourceId then { p with coins := p.coins + 3 } else p) := rfl
      unfold getCoins getCoinsP
      rw [this, findPlayer_map _ _ (fun p => by split <;> rfl)]
      rcases hsrc : findPlayer s.players pa.sourceId with _ | src
      · rfl
      · have hid : (src.id == pa.sourceId) = true := by
          simp [findPlayer_some_id hsrc]
        dsimp only [Option.map_some']
        rw [hid]
        rfl
    · intro htype
      unfold applyPassEffect
      rw [htype, if_neg (by decide), if_pos rfl]
      refine ⟨?_, nextTurn_phase _⟩
      unfold getCoins getCoinsP
      rw [show (nextTurn { s with
          players := s.players.map (fun p =>
            if p.id == pa.sourceId then { p with coins := p.coins + 2 } else p),
          passedResponderIds := none, pendingAction := none,
          logs := s.logs ++ [.foreign_aid_success pa.sourceId] }).players =
        s.players.map (fun p =>
          if p.id == pa.sourceId then { p with coins := p.coins + 2 } else p) from rfl,
        findPlayer_map _ _ (fun p => by split <;> rfl)]
      rcases hsrc : findPlayer s.players pa.sourceId with _ | src
      · rfl
      · have hid : (src.id == pa.sourceId) = true := by
          simp [findPlayer_some_id hsrc]
        dsimp only [Option.map_some']
        rw [hid]
        rfl
    · intro t htype htgt htne
      unfold applyPassEffect
      rw [htype, htgt, if_neg (by decide), if_neg (by decide),
        if_pos ⟨rfl, truthyStr_some htne⟩]
      exact ⟨rfl, rfl⟩
    · intro t target htype htgt htne htnesrc hftar
      unfold applyPassEffect
      rw [htype, htgt, if_neg (by decide), if_neg (by decide),
        if_neg (by rintro ⟨h, -⟩; cases h),
        if_pos ⟨rfl, truthyStr_some htne⟩]
      dsimp only [Option.getD_some]
      rw [hftar]
      dsimp only
      refine ⟨?_, ?_, nextTurn_phase _⟩
      · unfold getCoins getCoinsP
        rw [show ∀ x : GameState, (nextTurn x).players = x.players from fun _ => rfl]
        dsimp only
        rw [findPlayer_map _ _ (fun p => by split <;> first | rfl | (split <;> rfl))]
        rcases hsrc : findPlayer s.players pa.sourceId with _ | src
        · rfl
        · have hid : (src.id == pa.sourceId) = true := by
            simp [findPlayer_some_id hsrc]
          dsimp only [Option.map_some']
          rw [hid]
          rfl
      · unfold getCoins getCoinsP
        rw [show ∀ x : GameState, (nextTurn x).players = x.players from fun _ => rfl]
        dsimp only
        rw [findPlayer_map _ _ (fun p => by split <;> first | rfl | (split <;> rfl)), hftar]
        dsimp only [Option.map_some']
        have hid1 : (target.id == pa.sourceId) = false := by
          simp [findPlayer_some_id hftar, htnesrc]
        have hid2 : (target.id == t) = true := by
          simp [findPlayer_some_id hftar]
        rw [hid1, hid2]
        rfl
    · intro source htype hfsrc
      unfold applyPassEffect
      rw [htype, if_neg (by decide), if_neg (by decide),
        if_neg (by rintro ⟨h, -⟩; cases h),
        if_neg (by rintro ⟨h, -⟩; cases h), if_pos rfl, hfsrc]
      dsimp only
      refine ⟨rfl, rfl, ?_⟩
      unfold handSize handSizeP
      dsimp only
      rw [findPlayer_map _ _ (fun p => by split <;> rfl), hfsrc]
      dsimp only [Option.map_some']
      have hid : (source.id == pa.sourceId) = true := by
        simp [findPlayer_some_id hfsrc]
      rw [hid]
      simp [drawUpTo2_length]

/-! ## C5 — assassinate failed-block chain -/

/-- C5: (part 1) in `BLOCK_RESPONSE` over an Assassinate blocked with
Contessa, when the blocker's hand lacks the Contessa, a `CHALLENGE` from a
living player makes the blocker the `LOSE_CARD` victim and arms
`deferredLoseCardVictimId` with the assassination target — except when the
blocker *is* the target and holds a single card, in which case no second
loss is armed.  (part 2) when a `LOSE_CARD` resolves with a deferred
victim armed, the game is not over, and the deferred victim still holds a
card, the state moves to a second `LOSE_CARD` against that victim instead
of advancing the turn. -/
theorem assassinate_failed_block_chain (sh : Shuffler) :
    (∀ (s : GameState) (pa : PendingAction) (cid b t : String)
        (cur challenger blocker : Player),
      s.phase = .BLOCK_RESPONSE →
      s.pendingAction = some pa →
      pa.type = .assassinate →
      pa.blockedBy = some b → b ≠ "" →
      pa.blockedByRole = some .contessa →
      pa.targetId = some t →
      s.players[s.turnIndex]? = some cur → isAlive cur = true →
      findPlayer s.players cid = some challenger → isAlive challenger = true →
      findPlayer s.players b = some blocker →
      blocker.cards.contains (some .contessa) = false →
      (applyAction sh s (.CHALLENGE cid)).phase = .LOSE_CARD ∧
      (applyAction sh s (.CHALLENGE cid)).victimId = some b ∧
      (applyAction sh s (.CHALLENGE cid)).deferredLoseCardVictimId =
        (if b = t ∧ blocker.cards.length ≤ 1 then none else some t)) ∧
    (∀ (s : GameState) (w v : String) (idx : Int) (cur wp vp : Player),
      s.phase ≠ .GAME_OVER →
      s.players[s.turnIndex]? = some cur → isAlive cur = true →
      s.victimId = some w →
      findPlayer s.players w = some wp →
      s.deferredLoseCardVictimId = some v → v ≠ "" →
      ¬ (((s.players.map (fun p => if p.id == w then killPlayerCard wp idx else p)).filter
          isAlive).length = 1) →
      findPlayer (s.players.map (fun p => if p.id == w then killPlayerCard wp idx else p)) v =
        some vp →
      ¬ (vp.cards.length = 0) →
      (applyAction sh s (.LOSE_CARD w idx)).phase = .LOSE_CARD ∧
      (applyAction sh s (.LOSE_CARD w idx)).victimId = some v ∧
      (applyAction sh s (.LOSE_CARD w idx)).deferredLoseCardVictimId = none ∧
      (applyAction sh s (.LOSE_CARD w idx)).turnIndex = s.turnIndex) := by
  constructor
  · intro s pa cid b t cur challenger blocker hphase hpa htype hbby hbne hbrole htgt
      hcur hcuralive hchal hchalalive hfindb hcont
    have hng : s.phase ≠ .GAME_OVER := by rw [hphase]; intro h; cases h
    rw [applyAction_challenge_eq sh s cid cur hng hcur hcuralive]
    have hred : applyChallenge sh s cid = challengeBlockCase sh s cid pa b := by
      unfold applyChallenge
      rw [hchal]
      dsimp only
      rw [if_neg (by simp [hchalalive]), hphase]
      rw [hpa]
      dsimp only
      rw [hbby]
      rw [if_pos (truthyStr_some hbne)]
      dsimp only [Option.getD_some]
    rw [hred]
    unfold challengeBlockCase
    rw [hfindb]
    dsimp only
    rw [hbrole]
    dsimp only [Option.getD_some]
    rw [if_neg (by rw [hcont]; decide), htype, htgt]
    have hnfa : ¬ (ActionType.assassinate = ActionType.foreign_aid) := by decide
    have hns : ¬ (ActionType.assassinate = ActionType.steal ∧
        truthyStr (some t) = true) := by
      rintro ⟨h, -⟩
      cases h
    rw [if_neg hnfa, if_neg hns,
      if_pos (show ActionType.assassinate = ActionType.assassinate from rfl)]
    dsimp only
    refine ⟨rfl, rfl, ?_⟩
    by_cases hbt : b = t
    · by_cases hlen : blocker.cards.length ≤ 1
      · rw [if_neg (by simp [hbt]; omega), if_pos ⟨hbt, hlen⟩]
      · rw [if_pos (by simp [hbt]; omega), if_neg (by rintro ⟨-, h⟩; omega)]
    · rw [if_pos (by simp [hbt]), if_neg (by rintro ⟨h, -⟩; exact hbt h)]
  · intro s w v idx cur wp vp hng hcur hcuralive hv hfindw hdef hvne hnot1 hfindvp hvp
    rw [applyAction_loseCard_eq sh s w idx cur hng hcur hcuralive]
    unfold applyLoseCard
    rw [if_neg (by rw [hv]; exact fun h => h rfl), hfindw]
    dsimp only
    have hwin : checkWinCondition { s with
        players := s.players.map (fun p => if p.id == w then killPlayerCard wp idx else p),
        phase := .ACTION_SELECTION, victimId := none } = { s with
        players := s.players.map (fun p => if p.id == w then killPlayerCard wp idx else p),
        phase := .ACTION_SELECTION, victimId := none } := by
      unfold checkWinCondition
      dsimp only
      split
      · next w1 hfil =>
          exact absurd (by rw [hfil]; rfl) hnot1
      · rfl
    rw [hwin]
    dsimp only
    rw [if_neg (by decide), hdef]
    rw [if_pos (truthyStr_some hvne)]
    dsimp only [Option.getD_some]
    rw [hfindvp]
    dsimp only
    rw [if_neg hvp]
    exact ⟨rfl, rfl, rfl, rfl⟩

/-- Three players in `CHALLENGE_WINDOW` over `p1`'s Tax; `p2` already
passed. -/
def c3State : GameState :=
  { roomId := "room", hostPlayerId := "p1", phase := .CHALLENGE_WINDOW,
    players := [mkPlayer "p1" 2 [some .duke, some .duke] [],
                mkPlayer "p2" 2 [some .captain] [some .captain],
                mkPlayer "p3" 2 [some .contessa] [some .contessa]],
    turnIndex := 0,
    deck := [some .duke, some .assassin, some .assassin, some .assassin, some .captain,
             some .ambassador, some .ambassador, some .ambassador, some .contessa],
    pendingAction := some { type := .tax, sourceId := "p1" },
    logs := [], winnerId := none, victimId := none,
    passedResponderIds := some ["p2"] }

/-- Witness for C3 at a concrete input: `p3`'s pass is the last missing
one, so the Tax effect applies. -/
theorem unanimous_pass_witness :
    applyAction shId c3State (.PASS (some "p3")) =
      applyPassEffect c3State { type := .tax, sourceId := "p1" } ∧
    getCoins (applyPassEffect c3State { type := .tax, sourceId := "p1" }) "p1" =
      (getCoins c3State "p1").map (fun c => c + 3) ∧
    (applyPassEffect c3State { type := .tax, sourceId := "p1" }).phase = .ACTION_SELECTION := by
  have h := unanimous_pass shId c3State { type := .tax, sourceId := "p1" } "p3"
    (mkPlayer "p1" 2 [some .duke, some .duke] []) (mkPlayer "p3" 2 [some .contessa] [some .contessa])
    (by decide) (by decide) (by decide) (by decide) (by decide) (by decide) (by decide)
    (by decide)
  obtain ⟨-, -, h3⟩ := h
  have hh := h3 (by decide) (by decide)
  exact ⟨hh.1, (hh.2.1 rfl).1, (hh.2.1 rfl).2⟩

/-- In `BLOCK_RESPONSE`: `p1` assassinates `p2`, `p2` blocks claiming
Contessa without holding it. -/
def c5StateA : GameState :=
  { roomId := "room", hostPlayerId := "p1", phase := .BLOCK_RESPONSE,
    players := [mkPlayer "p1" 2 [some .assassin, some .duke] [],
                mkPlayer "p2" 2 [some .captain, some .duke] [],
                mkPlayer "p3" 2 [some .contessa] [some .ambassador]],
    turnIndex := 0,
    deck := [some .duke, some .assassin, some .assassin, some .captain, some .captain,
             some .ambassador, some .ambassador, some .contessa, some .contessa],
    pendingAction := some { type := .assassinate, sourceId := "p1", targetId := some "p2",
                            blockedBy := some "p2", blockedByRole := some .contessa },
    logs := [], winnerId := none, victimId := none, passedResponderIds := some [] }

/-- In `LOSE_CARD` against `p2` with the deferred second discard armed for
`p2` (blocker = target, two cards). -/
def c5StateB : GameState :=
  { roomId := "room", hostPlayerId := "p1", phase := .LOSE_CARD,
    players := [mkPlayer "p1" 2 [some .assassin, some .duke] [],
                mkPlayer "p2" 2 [some .captain, some .duke] [],
                mkPlayer "p3" 2 [some .contessa] [some .ambassador]],
    turnIndex := 0,
    deck := [some .duke, some .assassin, some .assassin, some .captain, some .captain,
             some .ambassador, some .ambassador, some .contessa, some .contessa],
    pendingAction := none,
    logs := [], winnerId := none, victimId := some "p2",
    deferredLoseCardVictimId := some "p2" }

/-- Witness for C5 at concrete inputs: the failed Contessa block arms the
deferred discard, and the resolved discard chains a second `LOSE_CARD`. -/
theorem assassinate_failed_block_chain_witness :
    ((applyAction shId c5StateA (.CHALLENGE "p1")).phase = .LOSE_CARD ∧
      (applyAction shId c5StateA (.CHALLENGE "p1")).victimId = some "p2" ∧
      (applyAction shId c5StateA (.CHALLENGE "p1")).deferredLoseCardVictimId = some "p2") ∧
    ((applyAction shId c5StateB (.LOSE_CARD "p2" 0)).phase = .LOSE_CARD ∧
      (applyAction shId c5StateB (.LOSE_CARD "p2" 0)).victimId = some "p2" ∧
      (applyAction shId c5StateB (.LOSE_CARD "p2" 0)).deferredLoseCardVictimId = none ∧
      (applyAction shId c5StateB (.LOSE_CARD "p2" 0)).turnIndex = c5StateB.turnIndex) := by
  have h := assassinate_failed_block_chain shId
  constructor
  · have ha := h.1 c5StateA
      { type := .assassinate, sourceId := "p1", targetId := some "p2",
        blockedBy := some "p2", blockedByRole := some .contessa } "p1" "p2" "p2"
      (mkPlayer "p1" 2 [some .assassin, some .duke] [])
      (mkPlayer "p1" 2 [some .assassin, some .duke] [])
      (mkPlayer "p2" 2 [some .captain, some .duke] [])
      (by decide) (by decide) (by decide) (by decide) (by decide) (by decide) (by decide)
      (by decide) (by decide) (by decide) (by decide) (by decide) (by decide)
    exact ⟨ha.1, ha.2.1, ha.2.2.trans (by decide)⟩
  · exact h.2 c5StateB "p2" "p2" 0
      (mkPlayer "p1" 2 [some .assassin, some .duke] [])
      (mkPlayer "p2" 2 [some .captain, some .duke] [])
      (killPlayerCard (mkPlayer "p2" 2 [some .captain, some .duke] []) 0)
      (by decide) (by decide) (by decide) (by decide) (by decide) (by decide) (by decide)
      (by decide) (by decide) (by decide)

/-! ## C8 — turn sequencer -/

/-- The scan underlying `nextTurn` finds the *first* living seat in cyclic
order, provided some seat within `fuel` steps is alive. -/
theorem findAliveFrom_spec (players : List Player) :
    ∀ (fuel start : Nat), start < players.length →
    (∃ j, j < fuel ∧ isAliveAt players ((start + j) % players.length) = true) →
    isAliveAt players (findAliveFrom players start fuel) = true ∧
    ∃ k, k < fuel ∧ findAliveFrom players start fuel = (start + k) % players.length ∧
      ∀ j, j < k → isAliveAt players ((start + j) % players.length) = false := by
  intro fuel
  induction fuel with
  | zero =>
    rintro start hs ⟨j, hj, -⟩
    omega
  | succ fuel ih =>
    rintro start hs ⟨j, hj, halivej⟩
    unfold findAliveFrom
    by_cases h0 : ((players.get? start).map isAlive).getD false = true
    · rw [if_pos h0]
      refine ⟨h0, 0, by omega, ?_, ?_⟩
      · rw [Nat.add_zero, Nat.mod_eq_of_lt hs]
      · intro j' hj'
        omega
    · rw [if_neg h0]
      have hlen : 0 < players.length := by omega
      have hs' : (start + 1) % players.length < players.length := Nat.mod_lt _ hlen
      have hshift : ∀ m, (((start + 1) % players.length) + m) % players.length =
          (start + 1 + m) % players.length := fun m => Nat.mod_add_mod _ _ _
      have hj0 : j ≠ 0 := by
        rintro rfl
        rw [Nat.add_zero, Nat.mod_eq_of_lt hs] at halivej
        exact h0 halivej
      have hpre : ∃ j', j' < fuel ∧ isAliveAt players
          ((((start + 1) % players.length) + j') % players.length) = true := by
        refine ⟨j - 1, by omega, ?_⟩
        rw [hshift, show start + 1 + (j - 1) = start + j by omega]
        exact halivej
      obtain ⟨ha, k, hk, heq, hmin⟩ := ih ((start + 1) % players.length) hs' hpre
      refine ⟨ha, k + 1, by omega, ?_, ?_⟩
      · rw [heq, hshift, show start + 1 + k = start + (k + 1) by omega]
      · intro j' hj'
        cases j' with
        | zero =>
          rw [Nat.add_zero, Nat.mod_eq_of_lt hs]
          exact Bool.not_eq_true _ ▸ Bool.of_not_eq_true h0
        | succ m =>
          have hm := hmin m (by omega)
          rw [hshift, show start + 1 + m = start + (m + 1) by omega] at hm
          exact hm

/-- C8: when at least one player is alive, `nextTurn` yields a state whose
`turnIndex` addresses a living player — the first living seat reached by a
cyclic forward scan from `turnIndex + 1` — in phase `ACTION_SELECTION` with
`pendingAction`, `victimId` and every continuation pointer cleared.  (The
source's `while` loop is the fuel-`players.length` scan, so this also
shows it terminates whenever a living player exists.) -/
theorem nextTurn_spec (s : GameState) (p0 : Player) (hp0 : p0 ∈ s.players)
    (halive0 : isAlive p0 = true) :
    isAliveAt (nextTurn s).players (nextTurn s).turnIndex = true ∧
    (∃ k, k < s.players.length ∧
      (nextTurn s).turnIndex = (s.turnIndex + 1 + k) % s.players.length ∧
      ∀ j, j < k → isAliveAt s.players ((s.turnIndex + 1 + j) % s.players.length) = false) ∧
    (nextTurn s).players = s.players ∧
    (nextTurn s).phase = .ACTION_SELECTION ∧
    (nextTurn s).pendingAction = none ∧
    (nextTurn s).victimId = none ∧
    (nextTurn s).exchangePlayerId = none ∧
    (nextTurn s).exchangeDrawnCards = none ∧
    (nextTurn s).deferredExchangeSourceId = none ∧
    (nextTurn s).deferredLoseCardVictimId = none ∧
    (nextTurn s).passedResponderIds = none := by
  obtain ⟨⟨i0, hi0len⟩, hget⟩ := List.mem_iff_get.mp hp0
  have halivei0 : isAliveAt s.players i0 = true := by
    unfold isAliveAt
    rw [List.get?_eq_get hi0len, hget]
    simpa using halive0
  have hlen : 0 < s.players.length := by omega
  have hs : (s.turnIndex + 1) % s.players.length < s.players.length := Nat.mod_lt _ hlen
  have hshift : ∀ m, (((s.turnIndex + 1) % s.players.length) + m) % s.players.length =
      (s.turnIndex + 1 + m) % s.players.length := fun m => Nat.mod_add_mod _ _ _
  have hpre : ∃ j, j < s.players.length ∧ isAliveAt s.players
      ((((s.turnIndex + 1) % s.players.length) + j) % s.players.length) = true := by
    by_cases hc : (s.turnIndex + 1) % s.players.length ≤ i0
    · refine ⟨i0 - (s.turnIndex + 1) % s.players.length, by omega, ?_⟩
      rw [show (s.turnIndex + 1) % s.players.length +
          (i0 - (s.turnIndex + 1) % s.players.length) = i0 by omega,
        Nat.mod_eq_of_lt hi0len]
      exact halivei0
    · refine ⟨i0 + s.players.length - (s.turnIndex + 1) % s.players.length, by omega, ?_⟩
      rw [show (s.turnIndex + 1) % s.players.length +
          (i0 + s.players.length - (s.turnIndex + 1) % s.players.length) =
          i0 + s.players.length by omega,
        Nat.add_mod_right, Nat.mod_eq_of_lt hi0len]
      exact halivei0
  obtain ⟨ha, k, hk, heq, hmin⟩ :=
    findAliveFrom_spec s.players s.players.length ((s.turnIndex + 1) % s.players.length)
      hs hpre
  refine ⟨?_, ⟨k, hk, ?_, ?_⟩, rfl, rfl, rfl, rfl, rfl, rfl, rfl, rfl, rfl⟩
  · exact ha
  · show findAliveFrom s.players ((s.turnIndex + 1) % s.players.length) s.players.length =
      (s.turnIndex + 1 + k) % s.players.length
    rw [heq, hshift]
  · intro j hj
    have hm := hmin j hj
    rw [hshift] at hm
    exact hm

/-- A state with a dead middle seat. -/
def c8State : GameState :=
  { roomId := "room", hostPlayerId := "p1", phase := .LOSE_CARD,
    players := [mkPlayer "p1" 2 [some .duke] [some .assassin],
                mkPlayer "p2" 2 [] [some .captain, some .captain],
                mkPlayer "p3" 2 [some .contessa] [some .ambassador]],
    turnIndex := 0,
    deck := [some .duke, some .duke, some .assassin, some .assassin, some .captain,
             some .ambassador, some .ambassador, some .contessa, some .contessa],
    pendingAction := none,
    logs := [], winnerId := none, victimId := none }

/-- Witness for C8 at a concrete input: the scan from seat 1 skips dead
`p2` and lands on living `p3`. -/
theorem nextTurn_spec_witness :
    isAliveAt (nextTurn c8State).players (nextTurn c8State).turnIndex = true ∧
    (nextTurn c8State).phase = .ACTION_SELECTION ∧
    (nextTurn c8State).pendingAction = none ∧
    (nextTurn c8State).turnIndex = 2 := by
  have h := nextTurn_spec c8State (mkPlayer "p1" 2 [some .duke] [some .assassin]) (by decide) (by decide)
  exact ⟨h.1, h.2.2.2.1, h.2.2.2.2.1, by decide⟩

/-! ## C10 — initializeGame -/

theorem popJS_append (l : List Card) (h : l ≠ []) : (popJS l).2 ++ [(popJS l).1] = l := by
  unfold popJS
  dsimp only
  rw [List.getLast?_eq_getLast l h]
  dsimp only [Option.getD_some]
  exact List.dropLast_append_getLast h

theorem dealPlayers_ids (names : List String) : ∀ (i : Nat) (deck : List Card),
    (dealPlayers names i deck).1.map (fun p => p.id) =
      (List.range names.length).map (fun k => "p" ++ toString (i + k + 1)) := by
  induction names with
  | nil =>
    intro i deck
    rfl
  | cons name rest ih =>
    intro i deck
    unfold dealPlayers
    dsimp only [List.length_cons, List.map_cons]
    rw [ih (i + 1), List.range_succ_eq_map]
    dsimp only [List.map_cons]
    rw [List.map_map]
    congr 1
    apply List.map_congr_left
    intro k _
    dsimp only [Function.comp]
    congr 2
    omega

theorem dealPlayers_names (names : List String) : ∀ (i : Nat) (deck : List Card),
    (dealPlayers names i deck).1.map (fun p => p.name) = names := by
  induction names with
  | nil =>
    intro i deck
    rfl
  | cons name rest ih =>
    intro i deck
    unfold dealPlayers
    dsimp only [List.map_cons]
    rw [ih (i + 1)]

theorem dealPlayers_fields (names : List String) : ∀ (i : Nat) (deck : List Card),
    ∀ p ∈ (dealPlayers names i deck).1,
      p.coins = 2 ∧ p.cards.length = 2 ∧ p.lostCards = [] ∧ p.isAlive = true := by
  induction names with
  | nil =>
    intro i deck p hp
    cases hp
  | cons name rest ih =>
    intro i deck p hp
    unfold dealPlayers at hp
    dsimp only at hp
    rcases List.mem_cons.mp hp with hp | hp
    · subst hp
      exact ⟨rfl, rfl, rfl, rfl⟩
    · exact ih (i + 1) _ p hp

theorem dealPlayers_deck (names : List String) : ∀ (i : Nat) (deck : List Card),
    2 * names.length ≤ deck.length →
    deck = (dealPlayers names i deck).2 ++
      ((dealPlayers names i deck).1.map (fun p => p.cards)).flatten.reverse := by
  induction names with
  | nil =>
    intro i deck _
    simp [dealPlayers]
  | cons name rest ih =>
    intro i deck h2n
    have hlen2 : 2 ≤ deck.length := by
      simp only [List.length_cons] at h2n
      omega
    have hne : deck ≠ [] := by
      intro h
      rw [h] at hlen2
      simp at hlen2
    have hd1len : (popJS deck).2.length = deck.length - 1 := by
      simp [popJS, List.length_dropLast]
    have hne1 : (popJS deck).2 ≠ [] := by
      intro h
      rw [h] at hd1len
      simp at hd1len
      omega
    have hih := ih (i + 1) (popJS (popJS deck).2).2 (by
      have hd2len : (popJS (popJS deck).2).2.length = deck.length - 2 := by
        simp only [popJS, List.length_dropLast]
        omega
      rw [hd2len]
      simp only [List.length_cons] at h2n
      omega)
    unfold dealPlayers
    dsimp only [List.map_cons]
    rw [List.flatten_cons, List.reverse_append]
    calc deck
        = (popJS deck).2 ++ [(popJS deck).1] := (popJS_append deck hne).symm
      _ = ((popJS (popJS deck).2).2 ++ [(popJS (popJS deck).2).1]) ++ [(popJS deck).1] := by
          rw [popJS_append _ hne1]
      _ = _ := by
          conv_lhs => rw [hih]
          simp [List.append_assoc]

/-- C10: `initializeGame` assigns ids `p1`, `p2`, … in list order
(ignoring any collaborator-supplied identifiers), keeps the requested host
id exactly when it starts with `"p"` (even if it names no player) and
falls back to `"p1"` otherwise, gives every player 2 coins and a 2-card
hand, and starts in `ACTION_SELECTION` at `turnIndex` 0.  When the deck
suffices (at most 7 players), the hands are drawn off the top of the
shuffled deck: shuffled deck = remaining deck ++ dealt cards (in draw
order). -/
theorem initializeGame_spec (sh : Shuffler) (roomId : String) (names : List String)
    (hostId : String) :
    (initializeGame sh roomId names hostId).players.map (fun p => p.id) =
      (List.range names.length).map (fun k => "p" ++ toString (k + 1)) ∧
    (initializeGame sh roomId names hostId).players.map (fun p => p.name) = names ∧
    (∀ p ∈ (initializeGame sh roomId names hostId).players,
      p.coins = 2 ∧ p.cards.length = 2 ∧ p.lostCards = [] ∧ p.isAlive = true) ∧
    (initializeGame sh roomId names hostId).hostPlayerId =
      (if hostId.startsWith "p" then hostId else "p1") ∧
    (initializeGame sh roomId names hostId).phase = .ACTION_SELECTION ∧
    (initializeGame sh roomId names hostId).turnIndex = 0 ∧
    (initializeGame sh roomId names hostId).pendingAction = none ∧
    (initializeGame sh roomId names hostId).winnerId = none ∧
    (initializeGame sh roomId names hostId).victimId = none ∧
    (2 * names.length ≤ (sh ROLES_DECK).length →
      sh ROLES_DECK = (initializeGame sh roomId names hostId).deck ++
        ((initializeGame sh roomId names hostId).players.map
          (fun p => p.cards)).flatten.reverse) := by
  refine ⟨?_, ?_, ?_, rfl, rfl, rfl, rfl, rfl, rfl, ?_⟩
  · show (dealPlayers names 0 (sh ROLES_DECK)).1.map (fun p => p.id) = _
    rw [dealPlayers_ids names 0 (sh ROLES_DECK)]
    apply List.map_congr_left
    intro k _
    congr 2
    omega
  · exact dealPlayers_names names 0 (sh ROLES_DECK)
  · intro p hp
    have := dealPlayers_fields names 0 (sh ROLES_DECK) p hp
    exact ⟨this.1, this.2.1, this.2.2.1, this.2.2.2⟩
  · intro hle
    exact dealPlayers_deck names 0 (sh ROLES_DECK) hle

/-- Witness for C10 at a concrete input: two names, a requested host id
that starts with `"p"` but names no player. -/
theorem initializeGame_spec_witness :
    (initializeGame shId "room" ["Alice", "Bob"] "p9").players.map (fun p => p.id) =
      ["p1", "p2"] ∧
    (initializeGame shId "room" ["Alice", "Bob"] "p9").phase = .ACTION_SELECTION ∧
    (initializeGame shId "room" ["Alice", "Bob"] "p9").turnIndex = 0 ∧
    shId ROLES_DECK = (initializeGame shId "room" ["Alice", "Bob"] "p9").deck ++
      ((initializeGame shId "room" ["Alice", "Bob"] "p9").players.map
        (fun p => p.cards)).flatten.reverse := by
  have h := initializeGame_spec shId "room" ["Alice", "Bob"] "p9"
  refine ⟨?_, h.2.2.2.2.1, h.2.2.2.2.2.1, h.2.2.2.2.2.2.2.2.2 (by decide)⟩
  rw [h.1]
  decide

end Coup
